import Mathlib

/-!
# Emergency Response Network: incident lifecycle and responder dispatch

A shallow embedding of `backend/models/emergencyModel.js` and
`backend/controllers/emergencyController.js`.

* A stored document is a record; every schema path of `emergencySchema` is a field.
* A request handler is a function from the request (body, caller, clock value) and the
  document found by `Emergency.findById` to an `Outcome`: the response (data or the error
  handed to `next`), the document held by the store when the handler ends, and the socket
  events emitted, in emission order.
* `Date.now()` is the argument `now`.
* `save`, `create` and `findByIdAndUpdate` run the validators declared in the schema.
* `responderActions` is a Mongoose `Map`: the store holds its entries, and a bracket
  assignment on the in-memory value adds a property of the object, not an entry.
* Numbers are IEEE 754 doubles: integers are rounded to 53 significant bits.
-/

namespace EmergencyResponse

/-- Identifier of a stored document (`mongoose.Schema.ObjectId`). -/
abbrev ObjectId := Nat

/-! ## The schema (`emergencyModel.js`) -/

/-- Value type of the `responderActions` map. -/
structure ResponderAction where
  action : String
  timestamp : Nat
deriving DecidableEq, Repr

/-- Element of the `updates` array. -/
structure Update where
  message : String
  updatedBy : ObjectId
  timestamp : Nat
deriving DecidableEq, Repr

/-- The `location` path: a GeoJSON point and an address. -/
structure Location where
  coordinates : List Int
  address : Option String
deriving DecidableEq, Repr

/-- A document of the `Emergency` collection. `responderActions` is `none` while the path is
unset, and otherwise the entries of the map in insertion order. -/
structure Emergency where
  _id : ObjectId
  type : String
  description : String
  location : Location
  severity : String
  status : String
  reportedBy : ObjectId
  responders : List ObjectId
  responderActions : Option (List (ObjectId × ResponderAction))
  updates : List Update
  createdAt : Nat
  assignedAt : Option Nat
  resolvedAt : Option Nat
deriving DecidableEq, Repr

/-- The `enum` of the `type` path. -/
def typeEnum : List String := ["fire", "medical", "police", "disaster", "other"]

/-- The `enum` of the `severity` path. -/
def severityEnum : List String := ["low", "medium", "high", "critical"]

/-- The `enum` of the `status` path. -/
def statusEnum : List String :=
  ["reported", "assigned", "in_progress", "resolved", "closed", "declined", "pending_reassignment"]

/-- The `enum` of `responderActions.$*.action`. -/
def actionEnum : List String := ["accepted", "declined"]

/-- Validators of the `type` path: required, enum. -/
def validType (t : String) : Bool := decide (t ∈ typeEnum)

/-- Validator of the `description` path: required. -/
def validDescription (d : String) : Bool := decide (d ≠ "")

/-- Validator of `location.coordinates`: `v.length === 2`. -/
def validLocation (l : Location) : Bool := decide (l.coordinates.length = 2)

/-- Validators of the `severity` path: required, enum. -/
def validSeverity (s : String) : Bool := decide (s ∈ severityEnum)

/-- Validators of the `status` path: required, enum. -/
def validStatus (s : String) : Bool := decide (s ∈ statusEnum)

/-- Validator of the `responderActions` path: every `action` is in its enum. -/
def validResponderActions (m : List (ObjectId × ResponderAction)) : Bool :=
  m.all (fun kv => decide (kv.2.action ∈ actionEnum))

/-- Validator of the `updates` path: every `message` is present. -/
def validUpdates (us : List Update) : Bool :=
  us.all (fun u => decide (u.message ≠ ""))

/-- Document validation as run by `create` and `save`: every validator of the schema. -/
def schemaValid (e : Emergency) : Bool :=
  validType e.type && validDescription e.description && validLocation e.location &&
  validSeverity e.severity && validStatus e.status &&
  (match e.responderActions with
   | none => true
   | some m => validResponderActions m) &&
  validUpdates e.updates

/-! ## Users and requests -/

/-- Modelled from the spec: `models/userModel.js` is not among the sources. A user document
carries the paths the controller reads: `_id`, `name`, `role`, `isAvailable`,
`specialization` (the spec's Responder: identity, specialization or none, availability
flag; its location is read only by the store's geospatial query). -/
structure User where
  _id : ObjectId
  name : String
  role : String
  isAvailable : Bool
  specialization : Option String
deriving DecidableEq, Repr

/-- The authenticated caller, `req.user`. -/
structure ReqUser where
  id : ObjectId
  role : String
deriving DecidableEq, Repr

/-- Errors a handler hands to `next`: `res.status(code); throw new Error(message)`, a
validation error raised by the store, or a `TypeError` raised by the runtime. -/
inductive ApiError where
  | http (code : Nat) (message : String)
  | validationError
  | typeError
deriving DecidableEq, Repr

/-- Socket events, one constructor per event name. `Room` variants are sent with
`io.to(id).emit`, the others with `io.emit`. -/
inductive Event where
  | new_emergency (emergency : Emergency) (reportedBy : Option User)
  | admin_emergency_notification (adminId emergency reportedBy : ObjectId)
  | new_emergency_nearby (responderId emergency : ObjectId)
  | admin_available_responders (adminId emergency : ObjectId) (availableResponders : List ObjectId)
  | admin_no_responders_nearby (adminId emergency : ObjectId) (type : String)
  | emergency_updatedRoom (room : ObjectId) (emergency : Emergency)
  | emergency_update_added (room : ObjectId) (update : Option Update)
  | responder_assigned (responderId emergency : ObjectId)
  | admin_responders_assigned (adminId emergency : ObjectId) (responders : List ObjectId)
  | emergency_updated (emergencyId : ObjectId) (status : String) (responders : List ObjectId)
  | admin_responder_action (adminId emergency responder : ObjectId) (action : String)
  | admin_all_declined (adminId emergency : ObjectId)
  | admin_emergency_resolved (adminId emergency resolvedBy : ObjectId)
  | emergency_status_updated (room : ObjectId) (status : String)
      (responderActions : Option (List (ObjectId × ResponderAction)))
deriving DecidableEq, Repr

/-- What a handler leaves behind: the response, the document the store holds under the
request's id when the handler ends, and the events emitted. -/
structure Outcome (α : Type) where
  response : Except ApiError α
  store : Option Emergency
  events : List Event

/-- The keys of the entries of a `responderActions` map. -/
def objKeys (o : List (ObjectId × ResponderAction)) : List ObjectId :=
  o.map Prod.fst

/-- `User.find({ role: 'admin' })`. -/
def findAdmins (users : List User) : List User :=
  users.filter (fun u => u.role == "admin")

/-- `User.findById(id)`. -/
def findUserById (users : List User) (id : ObjectId) : Option User :=
  users.find? (fun u => u._id == id)

/-- `emergency.save()`: validate, then write. -/
def save (e : Emergency) : Except ApiError Emergency :=
  if schemaValid e then .ok e else .error .validationError

/-! ## `updateEmergencyStatus` (`PUT /api/emergencies/:id/status`) -/

/-- The body of a status request: `const { status, responderAction } = req.body`. -/
structure StatusBody where
  status : Option String
  responderAction : Option String
deriving DecidableEq, Repr

/-- What `Object.values` returns for the in-memory `responderActions` value, each element
read through its `action` member (`none`: it has none). The value is a Mongoose `Map`
(`type: Map` in `emergencyModel.js`): its entries are not properties of the object. Its
own properties are the three its constructor sets (`$__parent`, `$__path`,
`$__schemaType`), none of which has an `action`, followed by those `assigned` with
brackets. -/
def mapOwnValues (assigned : List ResponderAction) : List (Option String) :=
  [none, none, none] ++ assigned.map (fun r => some r.action)

/-- The test `allDeclined`: as many values as responders, each with
`action === 'declined'`. -/
def allDeclined (emergency : Emergency) (assigned : List ResponderAction) : Bool :=
  let allResponders := mapOwnValues assigned
  decide (allResponders.length = emergency.responders.length) &&
    allResponders.all (fun a => decide (a = some "declined"))

/-- The block `if (responderAction && req.user.role === 'responder') { ... }` of
`updateEmergencyStatus`: the in-memory document and the events emitted when it completes,
or the error it throws. `emergency.responderActions = {}` sets the path to an empty map
when it is unset. `emergency.responderActions[req.user.id] = {...}` assigns a property of
the Map object: it adds no entry, so nothing of it is stored or validated. Reading
`responder.name` for the first admin notice throws a `TypeError` when `User.findById`
found nobody. -/
def responderActionBlock (users : List User) (now : Nat) (user : ReqUser)
    (responderAction : Option String) (emergency : Emergency) :
    Except ApiError (Emergency × List Event) :=
  match responderAction with
  | none => .ok (emergency, [])
  | some action =>
    if action ≠ "" ∧ user.role = "responder" then
      match emergency.responders.indexOf? user.id with
      | none => .error (.http 400 "You are not assigned to this emergency")
      | some _ =>
        let emergency1 : Emergency :=
          { emergency with responderActions := some (emergency.responderActions.getD []) }
        let assigned : List ResponderAction := [{ action := action, timestamp := now }]
        let adminUsers := findAdmins users
        if findUserById users user.id = none ∧ adminUsers ≠ [] then
          .error .typeError
        else
          let events1 :=
            adminUsers.map (fun admin =>
              Event.admin_responder_action admin._id emergency._id user.id action)
          if allDeclined emergency1 assigned then
            .ok ({ emergency1 with status := "pending_reassignment" },
              events1 ++ adminUsers.map (fun admin =>
                Event.admin_all_declined admin._id emergency._id))
          else
            .ok (emergency1, events1)
    else
      .ok (emergency, [])

/-- The handler `updateEmergencyStatus`. -/
def updateEmergencyStatus (users : List User) (now : Nat) (user : ReqUser) (body : StatusBody)
    (found : Option Emergency) : Outcome Emergency :=
  match body.status with
  | none => ⟨.error (.http 400 "Please provide a status"), found, []⟩
  | some status =>
    if status = "" then ⟨.error (.http 400 "Please provide a status"), found, []⟩
    else
      match found with
      | none => ⟨.error (.http 404 "Emergency not found"), found, []⟩
      | some emergency =>
        if user.role ≠ "admin" ∧ user.id ∉ emergency.responders then
          ⟨.error (.http 401 "Not authorized to update this emergency status"), found, []⟩
        else
          let adminUsers := findAdmins users
          match responderActionBlock users now user body.responderAction emergency with
          | .error err => ⟨.error err, found, []⟩
          | .ok (emergency1, events1) =>
            let emergency2 : Emergency := { emergency1 with status := status }
            let emergency3 : Emergency :=
              if status = "resolved" then { emergency2 with resolvedAt := some now } else emergency2
            let events3 :=
              if status = "resolved" then
                events1 ++ adminUsers.map (fun admin =>
                  Event.admin_emergency_resolved admin._id emergency._id user.id)
              else events1
            match save emergency3 with
            | .error err => ⟨.error err, found, events3⟩
            | .ok saved =>
              ⟨.ok saved, some saved,
                events3 ++ [Event.emergency_status_updated saved._id status saved.responderActions]⟩

/-! ## `assignResponders` (`PUT /api/emergencies/:id/assign`) -/

/-- The query `User.find({ _id: { $in: responderIds }, role: 'responder', isAvailable: true })`. -/
def findAvailableResponders (users : List User) (responderIds : List ObjectId) : List User :=
  users.filter (fun u => decide (u._id ∈ responderIds) && u.role == "responder" && u.isAvailable)

/-- The handler `assignResponders`. `responderIds` is `none` when the body has no
`responderIds` or it is not an array. -/
def assignResponders (users : List User) (now : Nat) (responderIds : Option (List ObjectId))
    (found : Option Emergency) : Outcome Emergency :=
  match responderIds with
  | none => ⟨.error (.http 400 "Please provide responder IDs"), found, []⟩
  | some responderIds =>
    match found with
    | none => ⟨.error (.http 404 "Emergency not found"), found, []⟩
    | some emergency =>
      if emergency.status ∉ ["reported", "pending_reassignment"] then
        ⟨.error (.http 400
          "Emergency must be in reported or pending reassignment status to assign responders"),
          found, []⟩
      else
        let responders := findAvailableResponders users responderIds
        if responders.length = 0 then
          ⟨.error (.http 400 "No available responders found"), found, []⟩
        else if responders.length ≠ responderIds.length then
          ⟨.error (.http 400 "One or more responders are not available or do not exist"),
            found, []⟩
        else
          let emergency1 : Emergency :=
            { emergency with
              responders := responderIds
              status := "assigned"
              assignedAt := some now
              responderActions := some [] }
          match save emergency1 with
          | .error err => ⟨.error err, found, []⟩
          | .ok saved =>
            ⟨.ok saved, some saved,
              responders.map (fun responder => Event.responder_assigned responder._id saved._id) ++
              (findAdmins users).map (fun admin =>
                Event.admin_responders_assigned admin._id saved._id
                  (responders.map (fun r => r._id))) ++
              [Event.emergency_updated saved._id "assigned" responderIds]⟩

/-! ## `addEmergencyUpdate` (`POST /api/emergencies/:id/updates`) -/

/-- The handler `addEmergencyUpdate`; the response is the last entry of the stored `updates`,
`populatedEmergency.updates[populatedEmergency.updates.length - 1]`. -/
def addEmergencyUpdate (now : Nat) (user : ReqUser) (message : Option String)
    (found : Option Emergency) : Outcome (Option Update) :=
  match message with
  | none => ⟨.error (.http 400 "Please add an update message"), found, []⟩
  | some message =>
    if message = "" then ⟨.error (.http 400 "Please add an update message"), found, []⟩
    else
      match found with
      | none => ⟨.error (.http 404 "Emergency not found"), found, []⟩
      | some emergency =>
        if user.role ≠ "admin" ∧ emergency.reportedBy ≠ user.id ∧
            user.id ∉ emergency.responders then
          ⟨.error (.http 401 "Not authorized to update this emergency"), found, []⟩
        else
          let update : Update := { message := message, updatedBy := user.id, timestamp := now }
          let emergency1 : Emergency := { emergency with updates := emergency.updates ++ [update] }
          match save emergency1 with
          | .error err => ⟨.error err, found, []⟩
          | .ok saved =>
            ⟨.ok saved.updates.getLast?, some saved,
              [Event.emergency_update_added saved._id saved.updates.getLast?]⟩

/-! ## `updateEmergency` (`PUT /api/emergencies/:id`) and `createEmergency` -/

/-- A request body read as a document: each schema path is present or not. -/
structure EmergencyBody where
  type : Option String
  description : Option String
  location : Option Location
  severity : Option String
  status : Option String
  reportedBy : Option ObjectId
  responders : Option (List ObjectId)
  responderActions : Option (List (ObjectId × ResponderAction))
  updates : Option (List Update)
  createdAt : Option Nat
  assignedAt : Option Nat
  resolvedAt : Option Nat
deriving DecidableEq, Repr

/-- The body with no path present. -/
def EmergencyBody.empty : EmergencyBody :=
  { type := none, description := none, location := none, severity := none, status := none,
    reportedBy := none, responders := none, responderActions := none, updates := none,
    createdAt := none, assignedAt := none, resolvedAt := none }

/-- The update validators (`runValidators: true`): each path present in the body passes the
validators of that path. They do not reach inside a `responderActions` map: the enum of
`action` is not applied to an update. -/
def bodyValid (b : EmergencyBody) : Bool :=
  (b.type.map validType).getD true && (b.description.map validDescription).getD true &&
  (b.location.map validLocation).getD true && (b.severity.map validSeverity).getD true &&
  (b.status.map validStatus).getD true &&
  (b.updates.map validUpdates).getD true

/-- The document after the body's paths are set on it. -/
def applyBody (b : EmergencyBody) (e : Emergency) : Emergency :=
  { e with
    type := b.type.getD e.type
    description := b.description.getD e.description
    location := b.location.getD e.location
    severity := b.severity.getD e.severity
    status := b.status.getD e.status
    reportedBy := b.reportedBy.getD e.reportedBy
    responders := b.responders.getD e.responders
    responderActions :=
      match b.responderActions with
      | some m => some m
      | none => e.responderActions
    updates := b.updates.getD e.updates
    createdAt := b.createdAt.getD e.createdAt
    assignedAt :=
      match b.assignedAt with
      | some t => some t
      | none => e.assignedAt
    resolvedAt :=
      match b.resolvedAt with
      | some t => some t
      | none => e.resolvedAt }

/-- The call `Emergency.findByIdAndUpdate(id, body, { new: true, runValidators: true })` on a
document that exists. -/
def findByIdAndUpdate (b : EmergencyBody) (e : Emergency) : Except ApiError Emergency :=
  if bodyValid b then .ok (applyBody b e) else .error .validationError

/-- The handler `updateEmergency`. -/
def updateEmergency (user : ReqUser) (body : EmergencyBody) (found : Option Emergency) :
    Outcome Emergency :=
  match found with
  | none => ⟨.error (.http 404 "Emergency not found"), found, []⟩
  | some emergency =>
    if user.role ≠ "admin" ∧ emergency.reportedBy ≠ user.id ∧
        user.id ∉ emergency.responders then
      ⟨.error (.http 401 "Not authorized to update this emergency"), found, []⟩
    else
      match findByIdAndUpdate body emergency with
      | .error err => ⟨.error err, found, []⟩
      | .ok updated => ⟨.ok updated, some updated, [Event.emergency_updatedRoom updated._id updated]⟩

/-- The call `Emergency.create(body)`: required paths must be present, defaults fill the
others, and the document is validated. `newId` is the identifier the store gives it. -/
def create (newId now : Nat) (b : EmergencyBody) : Except ApiError Emergency :=
  match b.type, b.description, b.location, b.severity, b.reportedBy with
  | some t, some d, some l, some s, some r =>
    let e : Emergency :=
      { _id := newId, type := t, description := d, location := l, severity := s,
        status := b.status.getD "reported", reportedBy := r,
        responders := b.responders.getD [], responderActions := b.responderActions,
        updates := b.updates.getD [], createdAt := b.createdAt.getD now,
        assignedAt := b.assignedAt, resolvedAt := b.resolvedAt }
    if schemaValid e then .ok e else .error .validationError
  | _, _, _, _, _ => .error .validationError

/-- The recognised specializations, `['fire', 'medical', 'police', 'disaster']`. -/
def specializations : List String := ["fire", "medical", "police", "disaster"]

/-- The helper `findNearbyResponders`. The geospatial part of the query is the argument
`near`: the users within `maxDistance` of `coordinates`, nearest first, as the store's
`$near` returns them. -/
def findNearbyResponders (near : List Int → Nat → List User) (emergencyType : String)
    (coordinates : List Int) (maxDistance : Nat) : List User :=
  let inRange := near coordinates maxDistance
  let base := fun (u : User) => u.role == "responder" && u.isAvailable
  let responders :=
    (if emergencyType ∈ specializations then
      inRange.filter (fun u => base u && u.specialization == some emergencyType)
    else inRange.filter base).take 5
  if responders.length < 3 ∧ emergencyType ∈ specializations then
    responders ++ (inRange.filter base).take (5 - responders.length)
  else responders

/-- The handler `createEmergency`. After a successful `create` the stored `type` and
`location.coordinates` are those of the body, and are what the helper is called with. -/
def createEmergency (users : List User) (near : List Int → Nat → List User) (newId now : Nat)
    (user : ReqUser) (body : EmergencyBody) : Outcome Emergency :=
  let body1 : EmergencyBody := { body with reportedBy := some user.id, status := some "reported" }
  match create newId now body1 with
  | .error err => ⟨.error err, none, []⟩
  | .ok emergency =>
    let adminUsers := findAdmins users
    let events1 :=
      Event.new_emergency emergency (findUserById users user.id) ::
        adminUsers.map (fun admin =>
          Event.admin_emergency_notification admin._id emergency._id user.id)
    let nearbyResponders :=
      findNearbyResponders near emergency.type emergency.location.coordinates 10000
    let events2 :=
      if nearbyResponders.length > 0 then
        nearbyResponders.map (fun responder =>
          Event.new_emergency_nearby responder._id emergency._id) ++
        adminUsers.map (fun admin =>
          Event.admin_available_responders admin._id emergency._id
            (nearbyResponders.map (fun r => r._id)))
      else
        adminUsers.map (fun admin =>
          Event.admin_no_responders_nearby admin._id emergency._id emergency.type)
    ⟨.ok emergency, some emergency, events1 ++ events2⟩

/-! ## Requests on a stored incident, reachable documents, invariants -/

/-- A request to one of the handlers that act on a stored incident. -/
inductive Request where
  | updateEmergency (user : ReqUser) (body : EmergencyBody)
  | addEmergencyUpdate (now : Nat) (user : ReqUser) (message : Option String)
  | assignResponders (users : List User) (now : Nat) (responderIds : Option (List ObjectId))
  | updateEmergencyStatus (users : List User) (now : Nat) (user : ReqUser) (body : StatusBody)

/-- The document the store holds after the request is handled. -/
def Request.run (r : Request) (found : Option Emergency) : Option Emergency :=
  match r with
  | .updateEmergency user body => (EmergencyResponse.updateEmergency user body found).store
  | .addEmergencyUpdate now user message =>
    (EmergencyResponse.addEmergencyUpdate now user message found).store
  | .assignResponders users now responderIds =>
    (EmergencyResponse.assignResponders users now responderIds found).store
  | .updateEmergencyStatus users now user body =>
    (EmergencyResponse.updateEmergencyStatus users now user body found).store

/-- Documents reachable from a `createEmergency` whose body satisfies `okBody` through
requests that satisfy `okRequest`. -/
inductive ReachableBy (okBody : EmergencyBody → Prop) (okRequest : Request → Prop) :
    Emergency → Prop where
  | created (users : List User) (near : List Int → Nat → List User) (newId now : Nat)
      (user : ReqUser) (body : EmergencyBody) (e : Emergency) :
      okBody body → (createEmergency users near newId now user body).store = some e →
      ReachableBy okBody okRequest e
  | step (r : Request) (e e' : Emergency) :
      ReachableBy okBody okRequest e → okRequest r → r.run (some e) = some e' →
      ReachableBy okBody okRequest e'

/-- Documents reachable through the exposed operations, with no restriction on requests. -/
def Reachable (e : Emergency) : Prop :=
  ReachableBy (fun _ => True) (fun _ => True) e

/-- The keys of `responderActions` are among `responders`. -/
def actionKeysAssigned (e : Emergency) : Prop :=
  ∀ k ∈ objKeys (e.responderActions.getD []), k ∈ e.responders

instance (e : Emergency) : Decidable (actionKeysAssigned e) :=
  inferInstanceAs (Decidable (∀ k ∈ objKeys (e.responderActions.getD []), k ∈ e.responders))

/-- A request that is not an `updateEmergency` carrying `responderActions`. -/
def Request.carriesNoActions (r : Request) : Prop :=
  match r with
  | .updateEmergency _ body => body.responderActions = none
  | _ => True

/-- The edges of the spec's state machine that are labelled `changeStatus`. -/
def specChangeStatusEdges : List (String × String) :=
  [("assigned", "in_progress"), ("assigned", "resolved"), ("assigned", "declined"),
   ("assigned", "closed"), ("pending_reassignment", "closed"),
   ("pending_reassignment", "declined"), ("in_progress", "resolved"),
   ("in_progress", "closed"), ("resolved", "closed")]

/-! ## Sample data -/

/-- A directory with one admin, two available responders and one unavailable responder. -/
def sampleUsers : List User :=
  [ { _id := 1, name := "Ada", role := "admin", isAvailable := true, specialization := none },
    { _id := 5, name := "Bo", role := "responder", isAvailable := true,
      specialization := some "fire" },
    { _id := 6, name := "Cy", role := "responder", isAvailable := true,
      specialization := some "medical" },
    { _id := 7, name := "Di", role := "responder", isAvailable := false,
      specialization := some "fire" } ]

/-- The admin of `sampleUsers` as a caller. -/
def sampleAdmin : ReqUser := { id := 1, role := "admin" }

/-- A freshly reported incident. -/
def sampleReported : Emergency :=
  { _id := 40, type := "fire", description := "smoke", severity := "high",
    location := { coordinates := [10, 20], address := none },
    status := "reported", reportedBy := 2, responders := [], responderActions := none,
    updates := [], createdAt := 10, assignedAt := none, resolvedAt := none }

/-- The incident after responder 5 was assigned at time 20. -/
def sampleAssigned : Emergency :=
  { sampleReported with
    status := "assigned", responders := [5], responderActions := some [],
    assignedAt := some 20 }

/-- An incident waiting for reassignment, with responders 5 and 7 and a map that holds a
decline for each. -/
def samplePending : Emergency :=
  { sampleAssigned with
    status := "pending_reassignment", responders := [5, 7],
    responderActions := some [(5, { action := "declined", timestamp := 30 }),
      (7, { action := "declined", timestamp := 31 })] }

/-- An incident in progress, assigned to responder 5, with a map that holds an acceptance
for that responder. -/
def sampleAccepted : Emergency :=
  { sampleAssigned with
    status := "in_progress",
    responderActions := some [(5, { action := "accepted", timestamp := 30 })] }

/-- The reported incident after an admin's `updateEmergency` whose body carries
`responderActions` with the key 5: the incident has no responders. -/
def sampleStray : Emergency :=
  { sampleReported with
    responderActions := some [(5, { action := "declined", timestamp := 1 })] }

/-- The incident assigned to responder 5 after an admin's `updateEmergency` whose body sets
`responders` to `[6]`. -/
def sampleReassignedByUpdate : Emergency :=
  { sampleAssigned with responders := [6] }

/-- The incident in progress after it was resolved at time 60. -/
def sampleResolved : Emergency :=
  { sampleAccepted with status := "resolved", resolvedAt := some 60 }

/-- The body of the request that created `sampleReported`. -/
def sampleBody : EmergencyBody :=
  { EmergencyBody.empty with
    type := some "fire", description := some "smoke", severity := some "high",
    location := some { coordinates := [10, 20], address := none } }

/-- A store whose geospatial query finds nobody. -/
def nobodyNear : List Int → Nat → List User := fun _ _ => []

/-! ## `getEmergencies` (`GET /api/emergencies`) -/

/-- The white space `parseInt` skips at the start of its input (ECMAScript
`StrWhiteSpaceChar`), by code point. -/
def isStrWhiteSpace (c : Char) : Bool :=
  decide (c.toNat ∈ [9, 10, 11, 12, 13, 32, 160, 5760, 8232, 8233, 8239, 8287, 12288, 65279]) ||
    (decide (8192 ≤ c.toNat) && decide (c.toNat ≤ 8202))

/-- A value of the JavaScript Number type that arithmetic on integers produces: `NaN`, an
infinity, or an integer that is an IEEE 754 double. The sign of zero is not kept: no
expression of the handler tells `-0` from `0`. -/
inductive JsNumber where
  | nan
  | infinity (negative : Bool)
  | finite (value : Int)
deriving DecidableEq, Repr

/-- The first power of two that is too large for a double, `2 ^ 1024`: what rounds to it is
`Infinity`. -/
def doubleOverflow : Nat := (2 ^ 256) ^ 4

/-- Rounding of a significand `q` with remainder `r` to nearest, where `half` is half a
unit in the last place: up when the remainder is above the half, or at the half with `q`
odd (ties to even). -/
def roundSignificand (q r half : Nat) : Nat :=
  if half < r ∨ (r = half ∧ q % 2 = 1) then q + 1 else q

/-- The double nearest to the natural number `n`, ties to the even significand (53 bits);
`none` when `n` rounds to `Infinity`. -/
def roundToDouble (n : Nat) : Option Nat :=
  if n < 2 ^ 53 then some n
  else
    let e := Nat.log2 n - 52
    let q1 := roundSignificand (n / 2 ^ e) (n % 2 ^ e) (2 ^ (e - 1))
    if q1 * 2 ^ e < doubleOverflow then some (q1 * 2 ^ e) else none

/-- The Number an exact integer result is rounded to. -/
def JsNumber.ofInt (n : Int) : JsNumber :=
  match roundToDouble n.natAbs with
  | none => .infinity (decide (n < 0))
  | some v => .finite (if n < 0 then -(v : Int) else (v : Int))

/-- Unary minus. -/
def JsNumber.neg (x : JsNumber) : JsNumber :=
  match x with
  | .nan => .nan
  | .infinity negative => .infinity (!negative)
  | .finite v => .finite (-v)

/-- The operator `+` on Numbers. -/
def JsNumber.add (x y : JsNumber) : JsNumber :=
  match x, y with
  | .nan, _ => .nan
  | _, .nan => .nan
  | .infinity a, .infinity b => if a = b then .infinity a else .nan
  | .infinity a, .finite _ => .infinity a
  | .finite _, .infinity b => .infinity b
  | .finite a, .finite b => JsNumber.ofInt (a + b)

/-- The operator `-` on Numbers. -/
def JsNumber.sub (x y : JsNumber) : JsNumber :=
  x.add y.neg

/-- The operator `*` on Numbers. -/
def JsNumber.mul (x y : JsNumber) : JsNumber :=
  match x, y with
  | .nan, _ => .nan
  | _, .nan => .nan
  | .infinity a, .infinity b => .infinity (a != b)
  | .infinity a, .finite v => if v = 0 then .nan else .infinity (a != decide (v < 0))
  | .finite v, .infinity b => if v = 0 then .nan else .infinity (decide (v < 0) != b)
  | .finite a, .finite b => JsNumber.ofInt (a * b)

/-- The operator `<` on Numbers. -/
def JsNumber.lt (x y : JsNumber) : Bool :=
  match x, y with
  | .nan, _ => false
  | _, .nan => false
  | .infinity a, .infinity b => a && !b
  | .infinity a, .finite _ => a
  | .finite _, .infinity b => !b
  | .finite a, .finite b => decide (a < b)

/-- Truthiness of a Number: `NaN` and `0` are falsy. -/
def JsNumber.truthy (x : JsNumber) : Bool :=
  match x with
  | .nan => false
  | .infinity _ => true
  | .finite v => decide (v ≠ 0)

/-- The mathematical value of a run of decimal digits. -/
def decimalValue (digits : List Char) : Nat :=
  digits.foldl (fun acc c => acc * 10 + (c.toNat - 48)) 0

/-- The sign `parseInt` reads at the start of the trimmed input (`true`: negative), and what
follows it. -/
def readSign (trimmed : List Char) : Bool × List Char :=
  match trimmed with
  | '-' :: rest => (true, rest)
  | '+' :: rest => (false, rest)
  | rest => (false, rest)

/-- The call `parseInt(s, 10)`: leading white space is skipped, a sign is read, and the
longest run of decimal digits that follows is the value, rounded to the nearest double;
without a digit there the result is `NaN`. -/
def parseInt (s : String) : JsNumber :=
  let trimmed := s.toList.dropWhile isStrWhiteSpace
  let signed := readSign trimmed
  let digits := signed.2.takeWhile Char.isDigit
  if digits = [] then .nan
  else
    JsNumber.ofInt
      (if signed.1 then -(decimalValue digits : Int) else (decimalValue digits : Int))

/-- The expression `parseInt(param, 10) || fallback` on a query value (read as a string)
that may be missing: `parseInt(undefined, 10)` is `NaN`. -/
def parseIntOr (param : Option String) (fallback : JsNumber) : JsNumber :=
  match param with
  | none => fallback
  | some s => if (parseInt s).truthy then parseInt s else fallback

/-- An entry of `pagination`: `{ page, limit }`. -/
structure PageRef where
  page : JsNumber
  limit : JsNumber
deriving DecidableEq, Repr

/-- The object `pagination` of the response. -/
structure Pagination where
  next : Option PageRef
  prev : Option PageRef
deriving DecidableEq, Repr

/-- The response body of `getEmergencies`. -/
structure EmergencyList where
  count : Nat
  pagination : Pagination
  data : List Emergency
deriving DecidableEq, Repr

/-- The handler `getEmergencies`. `sorted` is what the query built from the filter, the
`select` and the `sort` of the request yields; `countDocuments` with the same filter is its
length. `skipLimit` is the store's `query.skip(startIndex).limit(limit)`. -/
def getEmergencies
    (skipLimit : JsNumber → JsNumber → List Emergency → Except ApiError (List Emergency))
    (pageParam limitParam : Option String) (sorted : List Emergency) :
    Except ApiError EmergencyList :=
  let page := parseIntOr pageParam (.finite 1)
  let limit := parseIntOr limitParam (.finite 10)
  let startIndex := (page.sub (.finite 1)).mul limit
  let endIndex := page.mul limit
  let total := JsNumber.ofInt sorted.length
  match skipLimit startIndex limit sorted with
  | .error err => .error err
  | .ok emergencies =>
    .ok { count := emergencies.length
          pagination :=
            { next :=
                if endIndex.lt total then
                  some { page := page.add (.finite 1), limit := limit }
                else none
              prev :=
                if (JsNumber.finite 0).lt startIndex then
                  some { page := page.sub (.finite 1), limit := limit }
                else none }
          data := emergencies }

/-- A store that skips and limits a result in memory, and refuses a skip or a limit that is
not a natural number. -/
def memorySkipLimit (skip limit : JsNumber) (docs : List Emergency) :
    Except ApiError (List Emergency) :=
  match skip, limit with
  | .finite s, .finite l =>
    if s < 0 ∨ l < 0 then .error (.http 500 "Skip and limit must be non-negative")
    else .ok ((docs.drop s.toNat).take l.toNat)
  | _, _ => .error (.http 500 "Skip and limit must be numbers")

/-! ## Sequences of `addEmergencyUpdate` calls -/

/-- The stored document after the calls `(now, caller, message)` are made in order, each on
the document the previous one stored; `none` as soon as a call is rejected. -/
def addEmergencyUpdates (calls : List (Nat × ReqUser × String)) (e : Emergency) :
    Option Emergency :=
  match calls with
  | [] => some e
  | (now, user, message) :: rest =>
    match (addEmergencyUpdate now user (some message) (some e)).response,
        (addEmergencyUpdate now user (some message) (some e)).store with
    | .ok _, some e1 => addEmergencyUpdates rest e1
    | _, _ => none

/-- The `updates` entry a call `(now, caller, message)` appends. -/
def updateOfCall (call : Nat × ReqUser × String) : Update :=
  { message := call.2.2, updatedBy := call.2.1.id, timestamp := call.1 }

/-- The event is an `admin_emergency_resolved` notice. -/
def Event.isResolvedNotice (ev : Event) : Bool :=
  match ev with
  | .admin_emergency_resolved _ _ _ => true
  | _ => false

/-- The event is an `emergency_update_added` event. -/
def Event.isUpdateAdded (ev : Event) : Bool :=
  match ev with
  | .emergency_update_added _ _ => true
  | _ => false

/-- Two update calls: the admin at time 50, then responder 5 at time 60. -/
def sampleCalls : List (Nat × ReqUser × String) :=
  [(50, sampleAdmin, "on site"), (60, { id := 5, role := "responder" }, "contained")]

/-- A store whose geospatial query finds every user of `sampleUsers`, in that order. -/
def sampleNear : List Int → Nat → List User := fun _ _ => sampleUsers

/-! ## Lemmas on validation and `save` -/

theorem save_eq_ok {e saved : Emergency} (h : save e = .ok saved) :
    schemaValid e = true ∧ saved = e := by
  unfold save at h
  split at h
  · next hv => exact ⟨hv, by cases h; rfl⟩
  · cases h

theorem save_eq_error {e : Emergency} {err : ApiError} (h : save e = .error err) :
    err = .validationError := by
  unfold save at h
  split at h <;> cases h
  rfl

theorem indexOf?_eq_none_iff_not_mem (l : List ObjectId) (a : ObjectId) :
    l.indexOf? a = none ↔ a ∉ l := by
  rw [List.indexOf?_eq_none_iff]
  constructor
  · intro h hmem
    exact h a hmem (by simp)
  · intro h x hx hxa
    have : x = a := by simpa using hxa
    exact h (this ▸ hx)

theorem save_of_valid {e : Emergency} (h : schemaValid e = true) : save e = .ok e := by
  simp [save, h]

theorem schemaValid_status {e : Emergency} (h : schemaValid e = true) :
    e.status ∈ statusEnum := by
  simp only [schemaValid, validStatus, Bool.and_eq_true, decide_eq_true_eq] at h
  exact h.1.1.2

theorem schemaValid_set_status {e : Emergency} (h : schemaValid e = true) {s : String}
    (hs : s ∈ statusEnum) (r : Option Nat) :
    schemaValid { e with status := s, resolvedAt := r } = true := by
  simp only [schemaValid, validStatus, Bool.and_eq_true, decide_eq_true_eq] at h ⊢
  exact ⟨⟨⟨h.1.1.1, hs⟩, h.1.2⟩, h.2⟩

/-! ## `updateEmergencyStatus`: what a call stores -/

theorem responderActionBlock_none (users : List User) (now : Nat) (user : ReqUser)
    (e : Emergency) : responderActionBlock users now user none e = .ok (e, []) := rfl

theorem updateEmergencyStatus_error_store (users : List User) (now : Nat) (user : ReqUser)
    (body : StatusBody) (found : Option Emergency) (err : ApiError)
    (h : (updateEmergencyStatus users now user body found).response = .error err) :
    (updateEmergencyStatus users now user body found).store = found := by
  cases hb : body.status with
  | none => simp [updateEmergencyStatus, hb]
  | some status =>
    by_cases h0 : status = ""
    · simp [updateEmergencyStatus, hb, h0]
    · cases found with
      | none => simp [updateEmergencyStatus, hb, h0]
      | some emergency =>
        by_cases h1 : user.role ≠ "admin" ∧ user.id ∉ emergency.responders
        · simp only [updateEmergencyStatus, hb, h0, if_false, if_pos h1]
        · cases hblk : responderActionBlock users now user body.responderAction emergency with
          | error err1 => simp only [updateEmergencyStatus, hb, h0, h1, hblk, if_false]
          | ok p =>
            obtain ⟨e1, ev1⟩ := p
            simp only [updateEmergencyStatus, hb, h0, h1, hblk, if_false] at h ⊢
            generalize save _ = r at h ⊢
            cases r with
            | error err2 => rfl
            | ok sv => simp at h

theorem updateEmergencyStatus_ok_store (users : List User) (now : Nat) (user : ReqUser)
    (body : StatusBody) (found : Option Emergency) (saved : Emergency)
    (h : (updateEmergencyStatus users now user body found).response = .ok saved) :
    body.status = some saved.status ∧ saved.status ∈ statusEnum ∧
    (updateEmergencyStatus users now user body found).store = some saved := by
  cases hb : body.status with
  | none => simp [updateEmergencyStatus, hb] at h
  | some status =>
    by_cases h0 : status = ""
    · simp [updateEmergencyStatus, hb, h0] at h
    · cases found with
      | none => simp [updateEmergencyStatus, hb, h0] at h
      | some emergency =>
        by_cases h1 : user.role ≠ "admin" ∧ user.id ∉ emergency.responders
        · simp only [updateEmergencyStatus, hb, h0, if_false, if_pos h1] at h
          cases h
        · cases hblk : responderActionBlock users now user body.responderAction emergency with
          | error err1 =>
            simp only [updateEmergencyStatus, hb, h0, h1, hblk, if_false] at h
            cases h
          | ok p =>
            obtain ⟨e1, ev1⟩ := p
            simp only [updateEmergencyStatus, hb, h0, h1, hblk, if_false] at h ⊢
            cases hsv : save (if status = "resolved" then
                { e1 with status := status, resolvedAt := some now }
              else { e1 with status := status }) with
            | error err2 =>
              rw [hsv] at h
              simp at h
            | ok sv =>
              rw [hsv] at h
              have hsaved : sv = saved := by simpa using h
              subst hsaved
              obtain ⟨hv, rfl⟩ := save_eq_ok hsv
              refine ⟨?_, schemaValid_status hv, rfl⟩
              split <;> rfl

/-- C1 (as stated, refuted): an admin's request for `in_progress` on an incident whose
status is `reported` is not an edge of the state machine, and yet the call succeeds and
the stored status becomes `in_progress`. -/
theorem updateEmergencyStatus_off_graph_succeeds :
    ("reported", "in_progress") ∉ specChangeStatusEdges ∧
    sampleReported.status = "reported" ∧
    (updateEmergencyStatus sampleUsers 100 sampleAdmin ⟨some "in_progress", none⟩
      (some sampleReported)).response = .ok { sampleReported with status := "in_progress" } ∧
    (updateEmergencyStatus sampleUsers 100 sampleAdmin ⟨some "in_progress", none⟩
      (some sampleReported)).store = some { sampleReported with status := "in_progress" } :=
  ⟨by decide, rfl, rfl, rfl⟩

/-- C1 (amended): `updateEmergencyStatus` does not look at the current status. Every
successful call stores the requested status, which is one of the seven enumerated values;
every rejected call leaves the stored incident as it was; and on a valid stored incident a
request without `responderAction`, made by an admin or an assigned responder and carrying
an enumerated status, succeeds whatever the current status is. -/
theorem updateEmergencyStatus_status_rule (users : List User) (now : Nat) (user : ReqUser)
    (body : StatusBody) (e : Emergency) :
    (∀ saved, (updateEmergencyStatus users now user body (some e)).response = .ok saved →
      body.status = some saved.status ∧ saved.status ∈ statusEnum ∧
      (updateEmergencyStatus users now user body (some e)).store = some saved) ∧
    (∀ err, (updateEmergencyStatus users now user body (some e)).response = .error err →
      (updateEmergencyStatus users now user body (some e)).store = some e) ∧
    (∀ status, schemaValid e = true → status ∈ statusEnum → body.status = some status →
      body.responderAction = none → (user.role = "admin" ∨ user.id ∈ e.responders) →
      ∃ saved, (updateEmergencyStatus users now user body (some e)).response = .ok saved ∧
        saved.status = status ∧
        (updateEmergencyStatus users now user body (some e)).store = some saved) := by
  refine ⟨fun saved h => updateEmergencyStatus_ok_store users now user body _ saved h,
    fun err h => updateEmergencyStatus_error_store users now user body _ err h, ?_⟩
  intro status hv hs hb hra hauth
  have hne : status ≠ "" := by
    rintro rfl
    revert hs
    decide
  have hauth' : ¬ (user.role ≠ "admin" ∧ user.id ∉ e.responders) := by
    rintro ⟨h1, h2⟩
    rcases hauth with h | h
    · exact h1 h
    · exact h2 h
  by_cases hres : status = "resolved"
  · subst hres
    have hsave := save_of_valid (schemaValid_set_status hv hs (some now))
    refine ⟨{ e with status := "resolved", resolvedAt := some now }, ?_, rfl, ?_⟩ <;>
      simp [updateEmergencyStatus, hb, hra, hauth', responderActionBlock_none, hsave]
  · have hsave := save_of_valid (schemaValid_set_status hv hs e.resolvedAt)
    refine ⟨{ e with status := status }, ?_, rfl, ?_⟩ <;>
      simp [updateEmergencyStatus, hb, hra, hne, hres, hauth', responderActionBlock_none, hsave]

/-- C1 (amended), at a concrete input: `closed` requested by an admin on a `reported`
incident is stored. -/
theorem updateEmergencyStatus_status_rule_witness :
    ∃ saved, (updateEmergencyStatus sampleUsers 100 sampleAdmin ⟨some "closed", none⟩
        (some sampleReported)).response = .ok saved ∧ saved.status = "closed" ∧
      (updateEmergencyStatus sampleUsers 100 sampleAdmin ⟨some "closed", none⟩
        (some sampleReported)).store = some saved :=
  (updateEmergencyStatus_status_rule sampleUsers 100 sampleAdmin ⟨some "closed", none⟩
    sampleReported).2.2 "closed" (by decide) (by decide) rfl rfl (Or.inl rfl)

/-- C2 (the code at the failing input): responder 5, the only responder of an `assigned`
incident, declines with `status: 'assigned'` in the body. The call succeeds and the store
holds the incident as it was: the status is the body's `assigned`, not
`pending_reassignment`, and the map of actions is still empty; the admin's action notice
is emitted and the all-declined notice is not. -/
theorem updateEmergencyStatus_decline_leaves_assigned :
    (updateEmergencyStatus sampleUsers 100 ⟨5, "responder"⟩ ⟨some "assigned", some "declined"⟩
      (some sampleAssigned)).response = .ok sampleAssigned ∧
    (updateEmergencyStatus sampleUsers 100 ⟨5, "responder"⟩ ⟨some "assigned", some "declined"⟩
      (some sampleAssigned)).store = some sampleAssigned ∧
    sampleAssigned.responders = [5] ∧ sampleAssigned.responderActions = some [] ∧
    sampleAssigned.status = "assigned" ∧ "assigned" ≠ "pending_reassignment" ∧
    Event.admin_responder_action 1 40 5 "declined" ∈
      (updateEmergencyStatus sampleUsers 100 ⟨5, "responder"⟩
        ⟨some "assigned", some "declined"⟩ (some sampleAssigned)).events ∧
    Event.admin_all_declined 1 40 ∉
      (updateEmergencyStatus sampleUsers 100 ⟨5, "responder"⟩
        ⟨some "assigned", some "declined"⟩ (some sampleAssigned)).events :=
  ⟨rfl, rfl, rfl, rfl, rfl, by decide, by decide, by decide⟩

/-! ## `assignResponders`: the directory lookup -/

theorem findAvailableResponders_ids_nodup {users : List User}
    (h : (users.map (fun u => u._id)).Nodup) (ids : List ObjectId) :
    ((findAvailableResponders users ids).map (fun u => u._id)).Nodup :=
  List.Nodup.sublist ((List.filter_sublist _).map _) h

theorem findAvailableResponders_mem {users : List User} {ids : List ObjectId} {x : ObjectId}
    (hx : x ∈ (findAvailableResponders users ids).map (fun u => u._id)) :
    x ∈ ids ∧ ∃ u ∈ users, u._id = x ∧ u.role = "responder" ∧ u.isAvailable = true := by
  simp only [findAvailableResponders, List.mem_map, List.mem_filter, Bool.and_eq_true,
    decide_eq_true_eq, beq_iff_eq] at hx
  obtain ⟨u, ⟨hu, ⟨hid, hrole⟩, hav⟩, rfl⟩ := hx
  exact ⟨hid, u, hu, rfl, hrole, hav⟩

theorem findAvailableResponders_length_le_dedup {users : List User}
    (h : (users.map (fun u => u._id)).Nodup) (ids : List ObjectId) :
    (findAvailableResponders users ids).length ≤ ids.dedup.length := by
  have hsub : (findAvailableResponders users ids).map (fun u => u._id) ⊆ ids.dedup :=
    fun x hx => List.mem_dedup.2 (findAvailableResponders_mem hx).1
  have := (List.subperm_of_subset (findAvailableResponders_ids_nodup h ids) hsub).length_le
  simpa using this

theorem findAvailableResponders_length_lt {users : List User}
    (h : (users.map (fun u => u._id)).Nodup) {ids : List ObjectId}
    (hbad : ∃ id ∈ ids, ¬ ∃ u ∈ users, u._id = id ∧ u.role = "responder" ∧ u.isAvailable = true) :
    (findAvailableResponders users ids).length < ids.length := by
  obtain ⟨bad, hmem, hnot⟩ := hbad
  have hsub : (findAvailableResponders users ids).map (fun u => u._id) ⊆
      ids.filter (fun x => decide (x ≠ bad)) := by
    intro x hx
    have hx' := findAvailableResponders_mem hx
    refine List.mem_filter.2 ⟨hx'.1, ?_⟩
    simp only [ne_eq, decide_not, Bool.not_eq_true', decide_eq_false_iff_not]
    rintro rfl
    exact hnot hx'.2
  have h1 := (List.subperm_of_subset (findAvailableResponders_ids_nodup h ids) hsub).length_le
  have h2 : (ids.filter (fun x => decide (x ≠ bad))).length < ids.length :=
    List.length_filter_lt_length_iff_exists.2 ⟨bad, hmem, by simp⟩
  simp only [List.length_map] at h1
  omega

/-! ## `assignResponders`: what a call stores -/

theorem assignResponders_error_store (users : List User) (now : Nat)
    (responderIds : Option (List ObjectId)) (found : Option Emergency) (err : ApiError)
    (h : (assignResponders users now responderIds found).response = .error err) :
    (assignResponders users now responderIds found).store = found ∧
    (assignResponders users now responderIds found).events = [] := by
  cases responderIds with
  | none => simp [assignResponders]
  | some ids =>
    cases found with
    | none => simp [assignResponders]
    | some e =>
      by_cases h1 : e.status ∉ ["reported", "pending_reassignment"]
      · simp only [assignResponders, if_pos h1, and_self]
      · by_cases h2 : (findAvailableResponders users ids).length = 0
        · simp only [assignResponders, if_neg h1, if_pos h2, and_self]
        · by_cases h3 : (findAvailableResponders users ids).length ≠ ids.length
          · simp only [assignResponders, if_neg h1, if_neg h2, if_pos h3, and_self]
          · simp only [assignResponders, if_neg h1, if_neg h2, if_neg h3] at h ⊢
            cases hsv : save { e with
                responders := ids, status := "assigned", assignedAt := some now,
                responderActions := some [] } with
            | error err2 => simp
            | ok sv =>
              rw [hsv] at h
              simp at h

theorem assignResponders_ok (users : List User) (now : Nat)
    (responderIds : Option (List ObjectId)) (found : Option Emergency) (saved : Emergency)
    (h : (assignResponders users now responderIds found).response = .ok saved) :
    ∃ ids e, responderIds = some ids ∧ found = some e ∧
      e.status ∈ ["reported", "pending_reassignment"] ∧
      (findAvailableResponders users ids).length = ids.length ∧ ids ≠ [] ∧
      saved = { e with
        responders := ids, status := "assigned", assignedAt := some now,
        responderActions := some [] } ∧
      (assignResponders users now responderIds found).store = some saved := by
  cases responderIds with
  | none => simp [assignResponders] at h
  | some ids =>
    cases found with
    | none => simp [assignResponders] at h
    | some e =>
      by_cases h1 : e.status ∉ ["reported", "pending_reassignment"]
      · simp only [assignResponders, if_pos h1] at h
        cases h
      · by_cases h2 : (findAvailableResponders users ids).length = 0
        · simp only [assignResponders, if_neg h1, if_pos h2] at h
          cases h
        · by_cases h3 : (findAvailableResponders users ids).length ≠ ids.length
          · simp only [assignResponders, if_neg h1, if_neg h2, if_pos h3] at h
            cases h
          · simp only [assignResponders, if_neg h1, if_neg h2, if_neg h3] at h ⊢
            cases hsv : save { e with
                responders := ids, status := "assigned", assignedAt := some now,
                responderActions := some [] } with
            | error err2 =>
              rw [hsv] at h
              simp at h
            | ok sv =>
              rw [hsv] at h
              have hsaved : sv = saved := by simpa using h
              subst hsaved
              obtain ⟨-, rfl⟩ := save_eq_ok hsv
              have h3' : (findAvailableResponders users ids).length = ids.length :=
                not_not.1 h3
              refine ⟨ids, e, rfl, rfl, not_not.1 h1, h3', ?_, rfl, rfl⟩
              rintro rfl
              exact h2 (by simpa using h3')

theorem schemaValid_assign {e : Emergency} (h : schemaValid e = true) (ids : List ObjectId)
    (now : Nat) :
    schemaValid { e with
      responders := ids, status := "assigned", assignedAt := some now,
      responderActions := some [] } = true := by
  simp only [schemaValid, validStatus, Bool.and_eq_true, decide_eq_true_eq] at h ⊢
  exact ⟨⟨⟨h.1.1.1, by decide⟩, by simp [validResponderActions]⟩, h.2⟩

theorem assignResponders_succeeds (users : List User) (now : Nat) (ids : List ObjectId)
    (e : Emergency) (hv : schemaValid e = true)
    (hst : e.status ∈ ["reported", "pending_reassignment"])
    (hlen : (findAvailableResponders users ids).length = ids.length) (hne : ids ≠ []) :
    (assignResponders users now (some ids) (some e)).response =
      .ok { e with
        responders := ids, status := "assigned", assignedAt := some now,
        responderActions := some [] } := by
  have h1 : ¬ e.status ∉ ["reported", "pending_reassignment"] := not_not.2 hst
  have h2 : ¬ (findAvailableResponders users ids).length = 0 := by
    rw [hlen]
    exact fun h0 => hne (List.length_eq_zero.1 h0)
  have h3 : ¬ (findAvailableResponders users ids).length ≠ ids.length := not_not.2 hlen
  simp only [assignResponders, if_neg h1, if_neg h2, if_neg h3,
    save_of_valid (schemaValid_assign hv ids now)]

/-- C3: `assignResponders` is all-or-nothing. In a directory whose users have distinct ids,
a `responderIds` list that is empty, or that holds an id not resolving to a user with role
`responder` and `isAvailable` true, is rejected with status 400; the stored incident is
the one found (no path of it changes) and no event is emitted. -/
theorem assignResponders_all_or_nothing (users : List User) (now : Nat)
    (ids : List ObjectId) (e : Emergency)
    (hnodup : (users.map (fun u => u._id)).Nodup)
    (hbad : ids = [] ∨ ∃ id ∈ ids,
      ¬ ∃ u ∈ users, u._id = id ∧ u.role = "responder" ∧ u.isAvailable = true) :
    (∃ msg, (assignResponders users now (some ids) (some e)).response =
      .error (.http 400 msg)) ∧
    (assignResponders users now (some ids) (some e)).store = some e ∧
    (assignResponders users now (some ids) (some e)).events = [] := by
  have hlen : (findAvailableResponders users ids).length = 0 ∨
      (findAvailableResponders users ids).length ≠ ids.length := by
    rcases hbad with rfl | hbad
    · left
      simpa using findAvailableResponders_length_le_dedup hnodup []
    · right
      exact Nat.ne_of_lt (findAvailableResponders_length_lt hnodup hbad)
  have herr : ∃ msg, (assignResponders users now (some ids) (some e)).response =
      .error (.http 400 msg) := by
    by_cases h1 : e.status ∉ ["reported", "pending_reassignment"]
    · refine ⟨"Emergency must be in reported or pending reassignment status to assign responders",
        ?_⟩
      simp only [assignResponders, if_pos h1]
    · by_cases h2 : (findAvailableResponders users ids).length = 0
      · refine ⟨"No available responders found", ?_⟩
        simp only [assignResponders, if_neg h1, if_pos h2]
      · have h3 : (findAvailableResponders users ids).length ≠ ids.length :=
          hlen.resolve_left h2
        refine ⟨"One or more responders are not available or do not exist", ?_⟩
        simp only [assignResponders, if_neg h1, if_neg h2, if_pos h3]
  obtain ⟨msg, hmsg⟩ := herr
  exact ⟨⟨msg, hmsg⟩, assignResponders_error_store users now (some ids) (some e) _ hmsg⟩

/-- C3 at a concrete input: responder 7 of the sample directory is not available, so
assigning `[5, 7]` to the reported sample incident is rejected and changes nothing. -/
theorem assignResponders_all_or_nothing_witness :
    (∃ msg, (assignResponders sampleUsers 20 (some [5, 7]) (some sampleReported)).response =
      .error (.http 400 msg)) ∧
    (assignResponders sampleUsers 20 (some [5, 7]) (some sampleReported)).store =
      some sampleReported ∧
    (assignResponders sampleUsers 20 (some [5, 7]) (some sampleReported)).events = [] :=
  assignResponders_all_or_nothing sampleUsers 20 [5, 7] sampleReported (by decide)
    (Or.inr ⟨7, by decide, by decide⟩)

/-- C4: `assignResponders` fails and leaves the incident unchanged whenever the current
status is neither `reported` nor `pending_reassignment` (with the status error as soon as
`responderIds` is an array), and when the status is one of those two the status error is
never the response. -/
theorem assignResponders_status_gate (users : List User) (now : Nat)
    (responderIds : Option (List ObjectId)) (e : Emergency) :
    (e.status ∉ ["reported", "pending_reassignment"] →
      (∃ err, (assignResponders users now responderIds (some e)).response = .error err) ∧
      (assignResponders users now responderIds (some e)).store = some e ∧
      (∀ ids, responderIds = some ids →
        (assignResponders users now responderIds (some e)).response = .error (.http 400
          "Emergency must be in reported or pending reassignment status to assign responders"))) ∧
    (e.status ∈ ["reported", "pending_reassignment"] →
      (assignResponders users now responderIds (some e)).response ≠ .error (.http 400
        "Emergency must be in reported or pending reassignment status to assign responders")) := by
  constructor
  · intro h1
    have hgate : ∀ ids, responderIds = some ids →
        (assignResponders users now responderIds (some e)).response = .error (.http 400
          "Emergency must be in reported or pending reassignment status to assign responders") := by
      rintro ids rfl
      simp only [assignResponders, if_pos h1]
    have herr : ∃ err, (assignResponders users now responderIds (some e)).response =
        .error err := by
      cases responderIds with
      | none => exact ⟨_, rfl⟩
      | some ids => exact ⟨_, hgate ids rfl⟩
    obtain ⟨err, herr⟩ := herr
    exact ⟨⟨err, herr⟩, (assignResponders_error_store users now responderIds _ err herr).1, hgate⟩
  · intro hst
    have h1 : ¬ e.status ∉ ["reported", "pending_reassignment"] := not_not.2 hst
    cases responderIds with
    | none => simp [assignResponders]
    | some ids =>
      by_cases h2 : (findAvailableResponders users ids).length = 0
      · simp only [assignResponders, if_neg h1, if_pos h2]
        simp
      · by_cases h3 : (findAvailableResponders users ids).length ≠ ids.length
        · simp only [assignResponders, if_neg h1, if_neg h2, if_pos h3]
          simp
        · simp only [assignResponders, if_neg h1, if_neg h2, if_neg h3]
          cases hsv : save { e with
              responders := ids, status := "assigned", assignedAt := some now,
              responderActions := some [] } with
          | error err2 =>
            obtain rfl : err2 = .validationError := by
              unfold save at hsv
              split at hsv <;> cases hsv
              rfl
            simp
          | ok sv => simp

/-- C4 at a concrete input: the sample incident already `assigned` refuses a new
assignment with the status error and stays as it is. -/
theorem assignResponders_status_gate_witness :
    (assignResponders sampleUsers 30 (some [6]) (some sampleAssigned)).response =
      .error (.http 400
        "Emergency must be in reported or pending reassignment status to assign responders") ∧
    (assignResponders sampleUsers 30 (some [6]) (some sampleAssigned)).store =
      some sampleAssigned :=
  have h := (assignResponders_status_gate sampleUsers 30 (some [6]) sampleAssigned).1
    (by decide)
  ⟨h.2.2 [6] rfl, h.2.1⟩

/-- C5: after a successful `assignResponders` the stored incident is the one found with
`responders` replaced by the requested list (same order), `status` set to `assigned`,
`assignedAt` set to the time of the call and `responderActions` emptied; nothing of the
earlier responders or actions is kept. -/
theorem assignResponders_replaces (users : List User) (now : Nat)
    (responderIds : Option (List ObjectId)) (e saved : Emergency)
    (h : (assignResponders users now responderIds (some e)).response = .ok saved) :
    responderIds = some saved.responders ∧ saved.status = "assigned" ∧
    saved.assignedAt = some now ∧ saved.responderActions = some [] ∧
    saved = { e with
      responders := saved.responders, status := "assigned", assignedAt := some now,
      responderActions := some [] } ∧
    (assignResponders users now responderIds (some e)).store = some saved := by
  obtain ⟨ids, e0, hids, he, -, -, -, hsaved, hstore⟩ :=
    assignResponders_ok users now responderIds (some e) saved h
  cases he
  subst hsaved
  exact ⟨hids, rfl, rfl, rfl, rfl, hstore⟩

/-- C5 at a concrete input: reassigning the pending sample incident to `[6]` at time 90
replaces responders `[5, 7]` and their two recorded declines. -/
theorem assignResponders_replaces_witness :
    (assignResponders sampleUsers 90 (some [6]) (some samplePending)).store =
      some { samplePending with
        responders := [6], status := "assigned", assignedAt := some 90,
        responderActions := some [] } :=
  (assignResponders_replaces sampleUsers 90 (some [6]) samplePending
    { samplePending with
      responders := [6], status := "assigned", assignedAt := some 90,
      responderActions := some [] } rfl).2.2.2.2.2

/-! ## `updateEmergencyStatus`: the accept/decline block -/

theorem responderActionBlock_ok {users : List User} {now : Nat} {user : ReqUser}
    {responderAction : Option String} {e e1 : Emergency} {ev : List Event}
    (h : responderActionBlock users now user responderAction e = .ok (e1, ev)) :
    ∃ st acts, e1 = { e with status := st, responderActions := acts } ∧
      (acts = e.responderActions ∨
        (user.id ∈ e.responders ∧ user.role = "responder" ∧
          ∃ a, responderAction = some a ∧ a ≠ "" ∧
            acts = some (e.responderActions.getD []))) := by
  cases responderAction with
  | none =>
    simp only [responderActionBlock, Except.ok.injEq, Prod.mk.injEq] at h
    exact ⟨e.status, e.responderActions, h.1.symm, Or.inl rfl⟩
  | some action =>
    by_cases hc : action ≠ "" ∧ user.role = "responder"
    · simp only [responderActionBlock, if_pos hc] at h
      cases hidx : e.responders.indexOf? user.id with
      | none =>
        rw [hidx] at h
        cases h
      | some i =>
        rw [hidx] at h
        have hmem : user.id ∈ e.responders := by
          by_contra hn
          rw [(indexOf?_eq_none_iff_not_mem _ _).2 hn] at hidx
          cases hidx
        by_cases hu : findUserById users user.id = none ∧ findAdmins users ≠ []
        · simp only [if_pos hu] at h
          cases h
        · simp only [if_neg hu] at h
          split at h
          · simp only [Except.ok.injEq, Prod.mk.injEq] at h
            exact ⟨_, _, h.1.symm, Or.inr ⟨hmem, hc.2, action, rfl, hc.1, rfl⟩⟩
          · simp only [Except.ok.injEq, Prod.mk.injEq] at h
            exact ⟨_, _, h.1.symm, Or.inr ⟨hmem, hc.2, action, rfl, hc.1, rfl⟩⟩
    · simp only [responderActionBlock, if_neg hc, Except.ok.injEq, Prod.mk.injEq] at h
      exact ⟨e.status, e.responderActions, h.1.symm, Or.inl rfl⟩

theorem responderActionBlock_error {users : List User} {now : Nat} {user : ReqUser}
    {responderAction : Option String} {e : Emergency} {err : ApiError}
    (h : responderActionBlock users now user responderAction e = .error err)
    (hmem : user.id ∈ e.responders) : err = .typeError := by
  cases responderAction with
  | none => simp [responderActionBlock] at h
  | some action =>
    by_cases hc : action ≠ "" ∧ user.role = "responder"
    · simp only [responderActionBlock, if_pos hc] at h
      cases hidx : e.responders.indexOf? user.id with
      | none =>
        rw [indexOf?_eq_none_iff_not_mem] at hidx
        exact absurd hmem hidx
      | some i =>
        rw [hidx] at h
        by_cases hu : findUserById users user.id = none ∧ findAdmins users ≠ []
        · simp only [if_pos hu, Except.error.injEq] at h
          exact h.symm
        · simp only [if_neg hu] at h
          split at h <;> cases h
    · simp only [responderActionBlock, if_neg hc] at h
      cases h

theorem updateEmergencyStatus_ok_shape (users : List User) (now : Nat) (user : ReqUser)
    (body : StatusBody) (e saved : Emergency)
    (h : (updateEmergencyStatus users now user body (some e)).response = .ok saved) :
    ∃ status acts, body.status = some status ∧
      saved = { e with
        status := status, responderActions := acts,
        resolvedAt := if status = "resolved" then some now else e.resolvedAt } ∧
      (acts = e.responderActions ∨
        (user.id ∈ e.responders ∧ user.role = "responder" ∧
          ∃ a, body.responderAction = some a ∧ a ≠ "" ∧
            acts = some (e.responderActions.getD []))) := by
  cases hb : body.status with
  | none => simp [updateEmergencyStatus, hb] at h
  | some status =>
    by_cases h0 : status = ""
    · simp [updateEmergencyStatus, hb, h0] at h
    · by_cases h1 : user.role ≠ "admin" ∧ user.id ∉ e.responders
      · simp only [updateEmergencyStatus, hb, h0, if_false, if_pos h1] at h
        cases h
      · cases hblk : responderActionBlock users now user body.responderAction e with
        | error err1 =>
          simp only [updateEmergencyStatus, hb, h0, h1, hblk, if_false] at h
          cases h
        | ok p =>
          obtain ⟨e1, ev1⟩ := p
          simp only [updateEmergencyStatus, hb, h0, h1, hblk, if_false] at h
          obtain ⟨st, acts, rfl, hacts⟩ := responderActionBlock_ok hblk
          cases hsv : save (if status = "resolved" then
              { ({ e with status := st, responderActions := acts } : Emergency) with
                status := status, resolvedAt := some now }
            else { ({ e with status := st, responderActions := acts } : Emergency) with
                status := status }) with
          | error err2 =>
            rw [hsv] at h
            simp at h
          | ok sv =>
            rw [hsv] at h
            have hsaved : sv = saved := by simpa using h
            subst hsaved
            obtain ⟨-, rfl⟩ := save_eq_ok hsv
            refine ⟨status, acts, rfl, ?_, hacts⟩
            split <;> rfl

/-- The not-assigned error of the accept/decline block is never the response: a caller who
passes the authorization test as a responder is in `responders`. -/
theorem updateEmergencyStatus_never_not_assigned (users : List User) (now : Nat)
    (user : ReqUser) (body : StatusBody) (found : Option Emergency) :
    (updateEmergencyStatus users now user body found).response ≠
      .error (.http 400 "You are not assigned to this emergency") := by
  cases hb : body.status with
  | none => simp [updateEmergencyStatus, hb]
  | some status =>
    by_cases h0 : status = ""
    · simp [updateEmergencyStatus, hb, h0]
    · cases found with
      | none => simp [updateEmergencyStatus, hb, h0]
      | some e =>
        by_cases h1 : user.role ≠ "admin" ∧ user.id ∉ e.responders
        · simp only [updateEmergencyStatus, hb, h0, if_false, if_pos h1]
          simp
        · cases hblk : responderActionBlock users now user body.responderAction e with
          | error err1 =>
            simp only [updateEmergencyStatus, hb, h0, h1, hblk, if_false]
            intro hcontra
            simp only [Except.error.injEq] at hcontra
            subst hcontra
            cases hra : body.responderAction with
            | none => simp [hra, responderActionBlock] at hblk
            | some action =>
              rw [hra] at hblk
              by_cases hc : action ≠ "" ∧ user.role = "responder"
              · have hmem : user.id ∈ e.responders := by
                  by_contra hn
                  exact h1 ⟨by rw [hc.2]; decide, hn⟩
                have := responderActionBlock_error hblk hmem
                cases this
              · simp only [responderActionBlock, if_neg hc] at hblk
                cases hblk
          | ok p =>
            obtain ⟨e1, ev1⟩ := p
            simp only [updateEmergencyStatus, hb, h0, h1, hblk, if_false]
            generalize hr : save _ = r
            cases r with
            | error err2 =>
              cases save_eq_error hr
              simp
            | ok sv => simp

/-- C6 (as stated, refuted): responder 6 is not among the responders of the sample
incident; the decline is rejected, but with the 401 authorization error, which is not the
not-assigned error. -/
theorem updateEmergencyStatus_unassigned_gets_unauthorized :
    (6 : ObjectId) ∉ sampleAssigned.responders ∧
    (updateEmergencyStatus sampleUsers 100 ⟨6, "responder"⟩ ⟨some "assigned", some "declined"⟩
      (some sampleAssigned)).response =
      .error (.http 401 "Not authorized to update this emergency status") ∧
    (updateEmergencyStatus sampleUsers 100 ⟨6, "responder"⟩ ⟨some "assigned", some "declined"⟩
      (some sampleAssigned)).response ≠
      .error (.http 400 "You are not assigned to this emergency") :=
  ⟨by decide, rfl, updateEmergencyStatus_never_not_assigned _ _ _ _ _⟩

/-- C6 (amended): a request through `updateEmergencyStatus` by a caller with role
`responder` whose id is not in the incident's `responders` fails with the 401
authorization error when the body carries a status (with the 400 missing-status error
otherwise), whatever `responderAction` it carries; the stored incident, hence
`responderActions` and `status`, is unchanged and no event is emitted. -/
theorem updateEmergencyStatus_unassigned_responder (users : List User) (now : Nat)
    (user : ReqUser) (body : StatusBody) (e : Emergency)
    (hrole : user.role = "responder") (hmem : user.id ∉ e.responders) :
    (∀ status, body.status = some status → status ≠ "" →
      (updateEmergencyStatus users now user body (some e)).response =
        .error (.http 401 "Not authorized to update this emergency status")) ∧
    ((body.status = none ∨ body.status = some "") →
      (updateEmergencyStatus users now user body (some e)).response =
        .error (.http 400 "Please provide a status")) ∧
    (updateEmergencyStatus users now user body (some e)).store = some e ∧
    (updateEmergencyStatus users now user body (some e)).events = [] := by
  have h1 : user.role ≠ "admin" ∧ user.id ∉ e.responders :=
    ⟨by rw [hrole]; decide, hmem⟩
  cases hb : body.status with
  | none => simp [updateEmergencyStatus, hb]
  | some status =>
    by_cases h0 : status = ""
    · simp [updateEmergencyStatus, hb, h0]
    · simp only [updateEmergencyStatus, hb, h0, if_false, if_pos h1]
      simp [h0]

/-- C6 (amended) at a concrete input: responder 6 on the sample incident assigned to
responder 5. -/
theorem updateEmergencyStatus_unassigned_responder_witness :
    (updateEmergencyStatus sampleUsers 100 ⟨6, "responder"⟩ ⟨some "assigned", some "declined"⟩
      (some sampleAssigned)).response =
      .error (.http 401 "Not authorized to update this emergency status") ∧
    (updateEmergencyStatus sampleUsers 100 ⟨6, "responder"⟩ ⟨some "assigned", some "declined"⟩
      (some sampleAssigned)).store = some sampleAssigned :=
  have h := updateEmergencyStatus_unassigned_responder sampleUsers 100 ⟨6, "responder"⟩
    ⟨some "assigned", some "declined"⟩ sampleAssigned rfl (by decide)
  ⟨h.1 "assigned" rfl (by decide), h.2.2.1⟩

/-! ## What each request leaves in the store -/

theorem create_ok {newId now : Nat} {b : EmergencyBody} {e : Emergency}
    (h : create newId now b = .ok e) :
    schemaValid e = true ∧ e.status = b.status.getD "reported" ∧
    b.reportedBy = some e.reportedBy ∧ e.responders = b.responders.getD [] ∧
    e.responderActions = b.responderActions := by
  unfold create at h
  cases ht : b.type <;> cases hd : b.description <;> cases hl : b.location <;>
    cases hs : b.severity <;> cases hr : b.reportedBy <;>
    simp only [ht, hd, hl, hs, hr] at h <;> try cases h
  split at h
  · next hv =>
    simp only [Except.ok.injEq] at h
    subst h
    exact ⟨hv, rfl, rfl, rfl, rfl⟩
  · cases h

theorem createEmergency_store {users : List User} {near : List Int → Nat → List User}
    {newId now : Nat} {user : ReqUser} {body : EmergencyBody} {e : Emergency}
    (h : (createEmergency users near newId now user body).store = some e) :
    schemaValid e = true ∧ e.status = "reported" ∧ e.reportedBy = user.id ∧
    e.responders = body.responders.getD [] ∧ e.responderActions = body.responderActions := by
  simp only [createEmergency] at h
  cases hc : create newId now
      { body with reportedBy := some user.id, status := some "reported" } with
  | error err =>
    rw [hc] at h
    cases h
  | ok created =>
    rw [hc] at h
    simp only [Option.some.injEq] at h
    subst h
    obtain ⟨hv, h1, h2, h3, h4⟩ := create_ok hc
    simp only [Option.getD_some, Option.some.injEq] at h1 h2
    exact ⟨hv, h1, h2.symm, h3, h4⟩

theorem updateEmergency_store (user : ReqUser) (body : EmergencyBody) (e : Emergency) :
    (updateEmergency user body (some e)).store = some e ∨
    (bodyValid body = true ∧
      (updateEmergency user body (some e)).store = some (applyBody body e)) := by
  by_cases h1 : user.role ≠ "admin" ∧ e.reportedBy ≠ user.id ∧ user.id ∉ e.responders
  · left
    simp only [updateEmergency, if_pos h1]
  · by_cases hv : bodyValid body = true
    · right
      simp only [updateEmergency, if_neg h1, findByIdAndUpdate, hv, if_true, and_self]
    · left
      simp only [updateEmergency, if_neg h1, findByIdAndUpdate, hv]
      rfl

theorem addEmergencyUpdate_store (now : Nat) (user : ReqUser) (message : Option String)
    (e : Emergency) :
    (addEmergencyUpdate now user message (some e)).store = some e ∨
    ∃ m, message = some m ∧ m ≠ "" ∧
      (addEmergencyUpdate now user message (some e)).store =
        some { e with
          updates := e.updates ++ [{ message := m, updatedBy := user.id, timestamp := now }] } := by
  cases message with
  | none => exact Or.inl rfl
  | some m =>
    by_cases h0 : m = ""
    · left
      simp only [addEmergencyUpdate, if_pos h0]
    · by_cases h1 : user.role ≠ "admin" ∧ e.reportedBy ≠ user.id ∧ user.id ∉ e.responders
      · left
        simp only [addEmergencyUpdate, if_neg h0, if_pos h1]
      · simp only [addEmergencyUpdate, if_neg h0, if_neg h1]
        cases hsv : save { e with
            updates := e.updates ++ [{ message := m, updatedBy := user.id, timestamp := now }] } with
        | error err => exact Or.inl rfl
        | ok sv =>
          obtain ⟨-, rfl⟩ := save_eq_ok hsv
          right
          exact ⟨m, rfl, h0, rfl⟩

theorem assignResponders_store (users : List User) (now : Nat)
    (responderIds : Option (List ObjectId)) (e : Emergency) :
    (assignResponders users now responderIds (some e)).store = some e ∨
    ∃ ids, responderIds = some ids ∧
      (assignResponders users now responderIds (some e)).store =
        some { e with
          responders := ids, status := "assigned", assignedAt := some now,
          responderActions := some [] } := by
  cases hr : (assignResponders users now responderIds (some e)).response with
  | error err => exact Or.inl (assignResponders_error_store users now _ _ err hr).1
  | ok saved =>
    obtain ⟨ids, e0, hids, he, -, -, -, hsaved, hstore⟩ :=
      assignResponders_ok users now responderIds (some e) saved hr
    cases he
    subst hsaved
    exact Or.inr ⟨ids, hids, hstore⟩

theorem updateEmergencyStatus_store (users : List User) (now : Nat) (user : ReqUser)
    (body : StatusBody) (e : Emergency) :
    (updateEmergencyStatus users now user body (some e)).store = some e ∨
    ∃ status acts, body.status = some status ∧ status ∈ statusEnum ∧
      (updateEmergencyStatus users now user body (some e)).store =
        some { e with
          status := status, responderActions := acts,
          resolvedAt := if status = "resolved" then some now else e.resolvedAt } ∧
      (acts = e.responderActions ∨
        (user.id ∈ e.responders ∧ user.role = "responder" ∧
          ∃ a, body.responderAction = some a ∧ a ≠ "" ∧
            acts = some (e.responderActions.getD []))) := by
  cases hr : (updateEmergencyStatus users now user body (some e)).response with
  | error err => exact Or.inl (updateEmergencyStatus_error_store users now user body _ err hr)
  | ok saved =>
    obtain ⟨status, acts, hb, hsaved, hacts⟩ :=
      updateEmergencyStatus_ok_shape users now user body e saved hr
    obtain ⟨hb', hst, hstore⟩ := updateEmergencyStatus_ok_store users now user body _ saved hr
    right
    refine ⟨status, acts, hb, ?_, ?_, hacts⟩
    · rw [hb, Option.some.injEq] at hb'
      rw [hb']
      exact hst
    · rw [hstore, hsaved]

/-! ## Invariants over reachable documents -/

theorem run_no_action_keys {r : Request} {e e' : Emergency} (hr : r.carriesNoActions)
    (hinv : objKeys (e.responderActions.getD []) = []) (h : r.run (some e) = some e') :
    objKeys (e'.responderActions.getD []) = [] := by
  cases r with
  | updateEmergency user body =>
    have h1 : body.responderActions = none := hr
    simp only [Request.run] at h
    rcases updateEmergency_store user body e with hs | ⟨-, hs⟩
    · rw [hs] at h
      cases h
      exact hinv
    · rw [hs] at h
      cases h
      simpa [applyBody, h1] using hinv
  | addEmergencyUpdate now user message =>
    simp only [Request.run] at h
    rcases addEmergencyUpdate_store now user message e with hs | ⟨m, -, -, hs⟩
    · rw [hs] at h
      cases h
      exact hinv
    · rw [hs] at h
      cases h
      exact hinv
  | assignResponders users now responderIds =>
    simp only [Request.run] at h
    rcases assignResponders_store users now responderIds e with hs | ⟨ids, -, hs⟩
    · rw [hs] at h
      cases h
      exact hinv
    · rw [hs] at h
      cases h
      rfl
  | updateEmergencyStatus users now user body =>
    simp only [Request.run] at h
    rcases updateEmergencyStatus_store users now user body e with
      hs | ⟨status, acts, -, -, hs, hacts⟩
    · rw [hs] at h
      cases h
      exact hinv
    · rw [hs] at h
      cases h
      rcases hacts with rfl | ⟨-, -, a, -, -, rfl⟩
      · exact hinv
      · simpa using hinv

theorem bodyValid_status {b : EmergencyBody} (h : bodyValid b = true) {s : String}
    (hs : b.status = some s) : s ∈ statusEnum := by
  simp only [bodyValid, Bool.and_eq_true, hs, Option.map_some', Option.getD_some, validStatus,
    decide_eq_true_eq] at h
  exact h.1.2

theorem run_status_enum {r : Request} {e e' : Emergency} (hst : e.status ∈ statusEnum)
    (h : r.run (some e) = some e') : e'.status ∈ statusEnum := by
  cases r with
  | updateEmergency user body =>
    simp only [Request.run] at h
    rcases updateEmergency_store user body e with hs | ⟨hv, hs⟩
    · rw [hs] at h
      cases h
      exact hst
    · rw [hs] at h
      cases h
      cases hb : body.status with
      | none => simpa [applyBody, hb] using hst
      | some s => simpa [applyBody, hb] using bodyValid_status hv hb
  | addEmergencyUpdate now user message =>
    simp only [Request.run] at h
    rcases addEmergencyUpdate_store now user message e with hs | ⟨m, -, -, hs⟩
    · rw [hs] at h
      cases h
      exact hst
    · rw [hs] at h
      cases h
      exact hst
  | assignResponders users now responderIds =>
    simp only [Request.run] at h
    rcases assignResponders_store users now responderIds e with hs | ⟨ids, -, hs⟩
    · rw [hs] at h
      cases h
      exact hst
    · rw [hs] at h
      cases h
      show "assigned" ∈ statusEnum
      decide
  | updateEmergencyStatus users now user body =>
    simp only [Request.run] at h
    rcases updateEmergencyStatus_store users now user body e with
      hs | ⟨status, acts, -, hstatus, hs, -⟩
    · rw [hs] at h
      cases h
      exact hst
    · rw [hs] at h
      cases h
      exact hstatus

/-- C7 (as stated, refuted): a `createEmergency` whose body carries `responderActions`
with the key 5 and no `responders` stores a document whose map has a key that is not a
responder; and `sampleStray`, with the same defect, is reached from the reported sample
incident by an admin's `updateEmergency` whose body carries such a map. -/
theorem actionKeys_escape_responders :
    (createEmergency sampleUsers nobodyNear 41 10 ⟨2, "user"⟩
      { sampleBody with
        responderActions := some [(5, { action := "declined", timestamp := 1 })] }).store =
      some { sampleReported with
        _id := 41,
        responderActions := some [(5, { action := "declined", timestamp := 1 })] } ∧
    Reachable { sampleReported with
        _id := 41,
        responderActions := some [(5, { action := "declined", timestamp := 1 })] } ∧
    ¬ actionKeysAssigned { sampleReported with
        _id := 41,
        responderActions := some [(5, { action := "declined", timestamp := 1 })] } ∧
    Reachable sampleStray ∧ ¬ actionKeysAssigned sampleStray := by
  refine ⟨rfl, ?_, by decide, ?_, by decide⟩
  · exact ReachableBy.created sampleUsers nobodyNear 41 10 ⟨2, "user"⟩
      { sampleBody with
        responderActions := some [(5, { action := "declined", timestamp := 1 })] } _
      trivial rfl
  · have h0 : Reachable sampleReported :=
      ReachableBy.created sampleUsers nobodyNear 40 10 ⟨2, "user"⟩ sampleBody sampleReported
        trivial rfl
    exact ReachableBy.step
      (Request.updateEmergency sampleAdmin
        { EmergencyBody.empty with
          responderActions := some [(5, { action := "declined", timestamp := 1 })] })
      sampleReported sampleStray h0 trivial rfl

/-- C7 (amended): the keys of `responderActions` are a subset of `responders` in every
incident state reached from a `createEmergency` whose body carries no `responderActions`
through `addEmergencyUpdate`, `assignResponders`, `updateEmergencyStatus`, and
`updateEmergency` requests whose body carries no `responderActions`. -/
theorem actionKeysAssigned_of_reachable (e : Emergency)
    (h : ReachableBy (fun body => body.responderActions = none) Request.carriesNoActions e) :
    actionKeysAssigned e := by
  have hkeys : objKeys (e.responderActions.getD []) = [] := by
    induction h with
    | created users near newId now user body e hbody hstore =>
      obtain ⟨-, -, -, -, hacts⟩ := createEmergency_store hstore
      rw [hacts, hbody]
      rfl
    | step r e e' _ hr hrun ih => exact run_no_action_keys hr ih hrun
  intro k hk
  rw [hkeys] at hk
  cases hk

/-- C7 (amended) at a concrete input: the sample incident after creation, assignment of
responder 5 and an admin's `updateEmergency` whose body sets `responders` to `[6]`. -/
theorem actionKeysAssigned_of_reachable_witness :
    actionKeysAssigned sampleReassignedByUpdate :=
  actionKeysAssigned_of_reachable sampleReassignedByUpdate
    (ReachableBy.step
      (Request.updateEmergency sampleAdmin { EmergencyBody.empty with responders := some [6] })
      sampleAssigned sampleReassignedByUpdate
      (ReachableBy.step (Request.assignResponders sampleUsers 20 (some [5])) sampleReported
        sampleAssigned
        (ReachableBy.created sampleUsers nobodyNear 40 10 ⟨2, "user"⟩ sampleBody sampleReported
          rfl rfl)
        trivial rfl)
      rfl rfl)

/-- C8: the status of every stored incident is one of the seven enumerated values. Every
document reachable through the exposed operations has such a status, and whatever status
value a further request carries, the document stored after it has such a status too. -/
theorem stored_status_in_enum (e : Emergency) (h : Reachable e) :
    e.status ∈ statusEnum ∧
    ∀ (r : Request) (e' : Emergency), r.run (some e) = some e' → e'.status ∈ statusEnum := by
  have hst : e.status ∈ statusEnum := by
    induction h with
    | created users near newId now user body e _ hstore =>
      rw [(createEmergency_store hstore).2.1]
      decide
    | step r e e' _ _ hrun ih => exact run_status_enum ih hrun
  exact ⟨hst, fun r e' hrun => run_status_enum hst hrun⟩

/-- C8 at a concrete input: an admin's `updateEmergencyStatus` and `updateEmergency`
carrying the status `"on_hold"` on the reported sample incident both leave the status
`reported` in the store. -/
theorem stored_status_in_enum_witness :
    "on_hold" ∉ statusEnum ∧
    (updateEmergencyStatus sampleUsers 50 sampleAdmin ⟨some "on_hold", none⟩
      (some sampleReported)).store = some sampleReported ∧
    (updateEmergency sampleAdmin { EmergencyBody.empty with status := some "on_hold" }
      (some sampleReported)).store = some sampleReported ∧
    sampleReported.status ∈ statusEnum :=
  ⟨by decide, rfl, rfl,
    (stored_status_in_enum sampleReported
      (ReachableBy.created sampleUsers nobodyNear 40 10 ⟨2, "user"⟩ sampleBody sampleReported
        trivial rfl)).1⟩

/-- C9: in a directory whose users have distinct ids (the lookup returns each matching user
once), the responders stored by a successful `assignResponders` contain no id twice, and
a `responderIds` list with a repeated id is rejected and leaves the incident unchanged. -/
theorem assignResponders_responders_nodup (users : List User) (now : Nat)
    (responderIds : Option (List ObjectId)) (e : Emergency)
    (hnodup : (users.map (fun u => u._id)).Nodup) :
    (∀ saved, (assignResponders users now responderIds (some e)).response = .ok saved →
      saved.responders.Nodup) ∧
    (∀ ids, responderIds = some ids → ¬ ids.Nodup →
      (∃ err, (assignResponders users now responderIds (some e)).response = .error err) ∧
      (assignResponders users now responderIds (some e)).store = some e) := by
  have hok : ∀ saved, (assignResponders users now responderIds (some e)).response = .ok saved →
      responderIds = some saved.responders ∧ saved.responders.Nodup := by
    intro saved h
    obtain ⟨ids, e0, hids, -, -, hlen, -, hsaved, -⟩ :=
      assignResponders_ok users now responderIds (some e) saved h
    subst hsaved
    have h1 := findAvailableResponders_length_le_dedup hnodup ids
    have h2 := (List.dedup_sublist ids).length_le
    have h3 : ids.dedup = ids := (List.dedup_sublist ids).eq_of_length (by omega)
    exact ⟨hids, List.dedup_eq_self.1 h3⟩
  refine ⟨fun saved h => (hok saved h).2, ?_⟩
  intro ids hids hdup
  cases hr : (assignResponders users now responderIds (some e)).response with
  | error err => exact ⟨⟨err, rfl⟩, (assignResponders_error_store users now _ _ err hr).1⟩
  | ok saved =>
    obtain ⟨h1, h2⟩ := hok saved hr
    rw [hids, Option.some.injEq] at h1
    exact absurd (h1 ▸ h2) hdup

/-- C9 at a concrete input: assigning `[5, 5]` to the reported sample incident is rejected. -/
theorem assignResponders_responders_nodup_witness :
    (∃ err, (assignResponders sampleUsers 20 (some [5, 5]) (some sampleReported)).response =
      .error err) ∧
    (assignResponders sampleUsers 20 (some [5, 5]) (some sampleReported)).store =
      some sampleReported :=
  (assignResponders_responders_nodup sampleUsers 20 (some [5, 5]) sampleReported
    (by decide)).2 [5, 5] rfl (by decide)

/-- C10 (as stated, refuted): the pending sample incident holds `assignedAt = 20` and a
successful reassignment at time 90 stores `assignedAt = 90`; the resolved sample incident
holds `resolvedAt = 60` and a successful status request `resolved` at time 95 stores
`resolvedAt = 95`. -/
theorem timestamps_overwritten :
    samplePending.assignedAt = some 20 ∧
    (assignResponders sampleUsers 90 (some [6]) (some samplePending)).response =
      .ok { samplePending with
        responders := [6], status := "assigned", assignedAt := some 90,
        responderActions := some [] } ∧
    (assignResponders sampleUsers 90 (some [6]) (some samplePending)).store =
      some { samplePending with
        responders := [6], status := "assigned", assignedAt := some 90,
        responderActions := some [] } ∧
    sampleResolved.resolvedAt = some 60 ∧
    (updateEmergencyStatus sampleUsers 95 sampleAdmin ⟨some "resolved", none⟩
      (some sampleResolved)).response = .ok { sampleResolved with resolvedAt := some 95 } ∧
    (updateEmergencyStatus sampleUsers 95 sampleAdmin ⟨some "resolved", none⟩
      (some sampleResolved)).store = some { sampleResolved with resolvedAt := some 95 } :=
  ⟨rfl, rfl, rfl, rfl, rfl, rfl⟩

/-- C10 (amended): `assignedAt` and `resolvedAt` are written by every call that sets them.
A successful `assignResponders` stores the time of the call in `assignedAt`, whatever it
held, and leaves `resolvedAt` as it was. A successful `updateEmergencyStatus` leaves
`assignedAt` as it was, stores the time of the call in `resolvedAt` when the requested
status is `resolved`, whatever it held, and leaves `resolvedAt` as it was for every other
requested status. -/
theorem timestamps_rule (users : List User) (now : Nat) (e saved : Emergency) :
    (∀ responderIds, (assignResponders users now responderIds (some e)).response = .ok saved →
      saved.assignedAt = some now ∧ saved.resolvedAt = e.resolvedAt) ∧
    (∀ user body, (updateEmergencyStatus users now user body (some e)).response = .ok saved →
      saved.assignedAt = e.assignedAt ∧
      (body.status = some "resolved" → saved.resolvedAt = some now) ∧
      (body.status ≠ some "resolved" → saved.resolvedAt = e.resolvedAt)) := by
  constructor
  · intro responderIds h
    obtain ⟨ids, e0, -, he, -, -, -, hsaved, -⟩ :=
      assignResponders_ok users now responderIds (some e) saved h
    cases he
    subst hsaved
    exact ⟨rfl, rfl⟩
  · intro user body h
    obtain ⟨status, acts, hb, hsaved, -⟩ :=
      updateEmergencyStatus_ok_shape users now user body e saved h
    subst hsaved
    refine ⟨rfl, ?_, ?_⟩
    · intro hres
      rw [hb, Option.some.injEq] at hres
      simp [hres]
    · intro hres
      have : status ≠ "resolved" := fun hs => hres (by rw [hb, hs])
      simp [this]

/-- C10 (amended) at a concrete input: closing the resolved sample incident at time 95
keeps `assignedAt = 20` and `resolvedAt = 60`. -/
theorem timestamps_rule_witness :
    ({ sampleResolved with status := "closed" } : Emergency).assignedAt = some 20 ∧
    ({ sampleResolved with status := "closed" } : Emergency).resolvedAt = some 60 :=
  have h := (timestamps_rule sampleUsers 95 sampleResolved
    { sampleResolved with status := "closed" }).2 sampleAdmin ⟨some "closed", none⟩ rfl
  ⟨h.1, h.2.2 (by decide)⟩

/-! ## `findNearbyResponders` -/

theorem fill_length_le (first rest : List User) (c : Prop) [Decidable c]
    (h : first.length ≤ 5) :
    (if first.length < 3 ∧ c then first ++ rest.take (5 - first.length) else first).length ≤
      5 := by
  by_cases hc : first.length < 3 ∧ c
  · rw [if_pos hc]
    simp only [List.length_append, List.length_take]
    omega
  · rw [if_neg hc]
    exact h

theorem mem_fill (first rest : List User) (c : Prop) [Decidable c] (u : User)
    (h : u ∈ (if first.length < 3 ∧ c then first ++ rest.take (5 - first.length) else first)) :
    u ∈ first ∨ u ∈ rest := by
  by_cases hc : first.length < 3 ∧ c
  · rw [if_pos hc] at h
    rcases List.mem_append.1 h with h | h
    · exact Or.inl h
    · exact Or.inr (List.mem_of_mem_take h)
  · rw [if_neg hc] at h
    exact Or.inl h

theorem findNearbyResponders_length_le (near : List Int → Nat → List User)
    (emergencyType : String) (coordinates : List Int) (maxDistance : Nat) :
    (findNearbyResponders near emergencyType coordinates maxDistance).length ≤ 5 :=
  fill_length_le _ _ _ (List.length_take_le _ _)

theorem findNearbyResponders_available (near : List Int → Nat → List User)
    (emergencyType : String) (coordinates : List Int) (maxDistance : Nat) (u : User)
    (hu : u ∈ findNearbyResponders near emergencyType coordinates maxDistance) :
    u ∈ near coordinates maxDistance ∧ u.role = "responder" ∧ u.isAvailable = true := by
  rcases mem_fill _ _ _ u hu with h | h
  · have h' := List.mem_of_mem_take h
    by_cases ht : emergencyType ∈ specializations
    · rw [if_pos ht] at h'
      simp only [List.mem_filter, Bool.and_eq_true, beq_iff_eq] at h'
      exact ⟨h'.1, h'.2.1.1, h'.2.1.2⟩
    · rw [if_neg ht] at h'
      simp only [List.mem_filter, Bool.and_eq_true, beq_iff_eq] at h'
      exact ⟨h'.1, h'.2.1, h'.2.2⟩
  · simp only [List.mem_filter, Bool.and_eq_true, beq_iff_eq] at h
    exact ⟨h.1, h.2.1, h.2.2⟩

theorem findNearbyResponders_fill (near : List Int → Nat → List User)
    (emergencyType : String) (coordinates : List Int) (maxDistance : Nat)
    (ht : emergencyType ∈ specializations)
    (hk : ((near coordinates maxDistance).filter (fun u =>
      (u.role == "responder" && u.isAvailable) &&
        u.specialization == some emergencyType)).length < 3) :
    findNearbyResponders near emergencyType coordinates maxDistance =
      (near coordinates maxDistance).filter (fun u =>
        (u.role == "responder" && u.isAvailable) && u.specialization == some emergencyType) ++
      ((near coordinates maxDistance).filter (fun u =>
        u.role == "responder" && u.isAvailable)).take
        (5 - ((near coordinates maxDistance).filter (fun u =>
          (u.role == "responder" && u.isAvailable) &&
            u.specialization == some emergencyType)).length) := by
  have htake : ((near coordinates maxDistance).filter (fun u =>
      (u.role == "responder" && u.isAvailable) &&
        u.specialization == some emergencyType)).take 5 =
      (near coordinates maxDistance).filter (fun u =>
        (u.role == "responder" && u.isAvailable) && u.specialization == some emergencyType) :=
    List.take_of_length_le (by omega)
  unfold findNearbyResponders
  simp only [if_pos ht, htake]
  rw [if_pos ⟨hk, ht⟩]

/-- C11 (the code at the failing input): with the sample directory in range, user 5 is
the only available fire specialist; the helper returns users 5, 5, 6: after the
specialists comes user 5 again, a fire specialist, before the non-specialist 6. -/
theorem findNearbyResponders_fill_repeats_specialist :
    ((sampleNear [10, 20] 10000).filter (fun u =>
      (u.role == "responder" && u.isAvailable) && u.specialization == some "fire")).map
      (fun u => u._id) = [5] ∧
    (findNearbyResponders sampleNear "fire" [10, 20] 10000).map (fun u => u._id) = [5, 5, 6] ∧
    ((findNearbyResponders sampleNear "fire" [10, 20] 10000).drop 1).map
      (fun u => u.specialization) = [some "fire", some "medical"] := by
  decide

/-- C17 (the code at the failing input): the geospatial query returns each user of the
sample directory once, and the list returned for a `fire` emergency holds user 5 twice. -/
theorem findNearbyResponders_not_nodup :
    ((sampleNear [10, 20] 10000).map (fun u => u._id)).Nodup ∧
    ¬ ((findNearbyResponders sampleNear "fire" [10, 20] 10000).map (fun u => u._id)).Nodup := by
  decide

/-! ## `addEmergencyUpdate` -/

theorem schemaValid_push {e : Emergency} (h : schemaValid e = true) (u : Update)
    (hu : u.message ≠ "") :
    schemaValid { e with updates := e.updates ++ [u] } = true := by
  simp only [schemaValid, validUpdates, Bool.and_eq_true, List.all_append, List.all_cons,
    List.all_nil, Bool.and_true, decide_eq_true_eq] at h ⊢
  exact ⟨h.1, h.2, hu⟩

theorem addEmergencyUpdate_error (now : Nat) (user : ReqUser) (message : Option String)
    (found : Option Emergency) (err : ApiError)
    (h : (addEmergencyUpdate now user message found).response = .error err) :
    (addEmergencyUpdate now user message found).store = found ∧
    (addEmergencyUpdate now user message found).events = [] := by
  cases message with
  | none => exact ⟨rfl, rfl⟩
  | some m =>
    by_cases h0 : m = ""
    · simp only [addEmergencyUpdate, if_pos h0, and_self]
    · cases found with
      | none => simp only [addEmergencyUpdate, if_neg h0, and_self]
      | some e =>
        by_cases h1 : user.role ≠ "admin" ∧ e.reportedBy ≠ user.id ∧ user.id ∉ e.responders
        · simp only [addEmergencyUpdate, if_neg h0, if_pos h1, and_self]
        · simp only [addEmergencyUpdate, if_neg h0, if_neg h1] at h ⊢
          cases hsv : save { e with
              updates := e.updates ++ [{ message := m, updatedBy := user.id, timestamp := now }] } with
          | error err2 => exact ⟨rfl, rfl⟩
          | ok sv =>
            rw [hsv] at h
            cases h

theorem addEmergencyUpdate_ok (now : Nat) (user : ReqUser) (message : Option String)
    (e : Emergency) (r : Option Update)
    (h : (addEmergencyUpdate now user message (some e)).response = .ok r) :
    ∃ m, message = some m ∧ m ≠ "" ∧
      r = some { message := m, updatedBy := user.id, timestamp := now } ∧
      (addEmergencyUpdate now user message (some e)).store =
        some { e with
          updates := e.updates ++ [{ message := m, updatedBy := user.id, timestamp := now }] } ∧
      (addEmergencyUpdate now user message (some e)).events =
        [Event.emergency_update_added e._id
          (some { message := m, updatedBy := user.id, timestamp := now })] := by
  cases message with
  | none => cases h
  | some m =>
    by_cases h0 : m = ""
    · simp only [addEmergencyUpdate, if_pos h0] at h
      cases h
    · by_cases h1 : user.role ≠ "admin" ∧ e.reportedBy ≠ user.id ∧ user.id ∉ e.responders
      · simp only [addEmergencyUpdate, if_neg h0, if_pos h1] at h
        cases h
      · simp only [addEmergencyUpdate, if_neg h0, if_neg h1] at h ⊢
        cases hsv : save { e with
            updates := e.updates ++ [{ message := m, updatedBy := user.id, timestamp := now }] } with
        | error err2 =>
          rw [hsv] at h
          cases h
        | ok sv =>
          rw [hsv] at h
          obtain ⟨-, rfl⟩ := save_eq_ok hsv
          simp only [List.getLast?_append, List.getLast?_singleton, Except.ok.injEq] at h ⊢
          refine ⟨m, rfl, h0, ?_, rfl, rfl⟩
          rw [← h]
          rfl

theorem addEmergencyUpdate_succeeds (now : Nat) (user : ReqUser) (m : String) (e : Emergency)
    (hv : schemaValid e = true) (hm : m ≠ "")
    (hauth : user.role = "admin" ∨ e.reportedBy = user.id ∨ user.id ∈ e.responders) :
    (addEmergencyUpdate now user (some m) (some e)).response =
      .ok (some { message := m, updatedBy := user.id, timestamp := now }) := by
  have h1 : ¬ (user.role ≠ "admin" ∧ e.reportedBy ≠ user.id ∧ user.id ∉ e.responders) := by
    rintro ⟨ha, hb, hc⟩
    rcases hauth with h | h | h
    · exact ha h
    · exact hb h
    · exact hc h
  simp only [addEmergencyUpdate, if_neg hm, if_neg h1,
    save_of_valid (schemaValid_push hv { message := m, updatedBy := user.id, timestamp := now } hm),
    List.getLast?_append, List.getLast?_singleton]
  rfl

theorem addEmergencyUpdates_updates (calls : List (Nat × ReqUser × String)) :
    ∀ (e e' : Emergency), addEmergencyUpdates calls e = some e' →
      e' = { e with updates := e.updates ++ calls.map updateOfCall } := by
  induction calls with
  | nil =>
    intro e e' h
    simp only [addEmergencyUpdates, Option.some.injEq] at h
    subst h
    simp
  | cons call rest ih =>
    intro e e' h
    obtain ⟨now, user, m⟩ := call
    simp only [addEmergencyUpdates] at h
    cases hr : (addEmergencyUpdate now user (some m) (some e)).response with
    | error err =>
      rw [hr] at h
      cases h
    | ok r =>
      obtain ⟨m', hm', -, -, hstore, -⟩ := addEmergencyUpdate_ok now user (some m) e r hr
      cases hm'
      rw [hr, hstore] at h
      have := ih _ _ h
      rw [this]
      simp [updateOfCall]

/-- C12: `addEmergencyUpdate` is append-only. An accepted call stores the incident with
exactly one entry `{message, caller id, now}` added at the end of `updates` and nothing
else changed, and answers with that entry; a sequence of accepted calls leaves the earlier
entries in place followed by one entry per call in call order, so N calls on an incident
without updates give N entries; and on a valid stored incident a non-empty message from
an admin, the reporter or an assigned responder is accepted. -/
theorem addEmergencyUpdate_append_only (now : Nat) (user : ReqUser) (message : Option String)
    (e : Emergency) :
    (∀ r, (addEmergencyUpdate now user message (some e)).response = .ok r →
      ∃ m, message = some m ∧
        r = some { message := m, updatedBy := user.id, timestamp := now } ∧
        (addEmergencyUpdate now user message (some e)).store =
          some { e with
            updates :=
              e.updates ++ [{ message := m, updatedBy := user.id, timestamp := now }] }) ∧
    (∀ calls e', addEmergencyUpdates calls e = some e' →
      e'.updates = e.updates ++ calls.map updateOfCall ∧
      (e.updates = [] → e'.updates.length = calls.length)) ∧
    (∀ m, message = some m → m ≠ "" → schemaValid e = true →
      (user.role = "admin" ∨ e.reportedBy = user.id ∨ user.id ∈ e.responders) →
      (addEmergencyUpdate now user message (some e)).response =
        .ok (some { message := m, updatedBy := user.id, timestamp := now })) := by
  refine ⟨?_, ?_, ?_⟩
  · intro r h
    obtain ⟨m, hm, -, hr, hstore, -⟩ := addEmergencyUpdate_ok now user message e r h
    exact ⟨m, hm, hr, hstore⟩
  · intro calls e' h
    have he' := addEmergencyUpdates_updates calls e e' h
    subst he'
    refine ⟨rfl, ?_⟩
    intro hnil
    simp [hnil]
  · rintro m rfl hm hv hauth
    exact addEmergencyUpdate_succeeds now user m e hv hm hauth

/-- C12 at a concrete input: the two sample calls on the assigned sample incident, which
has no updates, store two entries in call order. -/
theorem addEmergencyUpdate_append_only_witness :
    addEmergencyUpdates sampleCalls sampleAssigned =
      some { sampleAssigned with
        updates := [{ message := "on site", updatedBy := 1, timestamp := 50 },
          { message := "contained", updatedBy := 5, timestamp := 60 }] } ∧
    ({ sampleAssigned with
        updates := [{ message := "on site", updatedBy := 1, timestamp := 50 },
          { message := "contained", updatedBy := 5, timestamp := 60 }] } : Emergency).updates =
      sampleAssigned.updates ++ sampleCalls.map updateOfCall ∧
    (sampleAssigned.updates = [] →
      ({ sampleAssigned with
        updates := [{ message := "on site", updatedBy := 1, timestamp := 50 },
          { message := "contained", updatedBy := 5, timestamp := 60 }] } : Emergency).updates.length =
        sampleCalls.length) :=
  ⟨by decide,
    (addEmergencyUpdate_append_only 50 sampleAdmin (some "on site") sampleAssigned).2.1
      sampleCalls _ (by decide)⟩

/-- C13: `addEmergencyUpdate` with a missing or empty message fails with the 400 error
`Please add an update message`; the store holds what it held (the incident's `updates`
are unchanged) and no event, hence no `emergency_update_added`, is emitted. -/
theorem addEmergencyUpdate_empty_message (now : Nat) (user : ReqUser)
    (found : Option Emergency) :
    ((addEmergencyUpdate now user none found).response =
        .error (.http 400 "Please add an update message") ∧
      (addEmergencyUpdate now user none found).store = found ∧
      (addEmergencyUpdate now user none found).events = []) ∧
    ((addEmergencyUpdate now user (some "") found).response =
        .error (.http 400 "Please add an update message") ∧
      (addEmergencyUpdate now user (some "") found).store = found ∧
      (addEmergencyUpdate now user (some "") found).events = []) :=
  ⟨⟨rfl, rfl, rfl⟩, ⟨rfl, rfl, rfl⟩⟩

/-! ## `updateEmergencyStatus`: the events of a successful call -/

theorem responderActionBlock_events {users : List User} {now : Nat} {user : ReqUser}
    {responderAction : Option String} {e e1 : Emergency} {ev : List Event}
    (h : responderActionBlock users now user responderAction e = .ok (e1, ev)) :
    ev.filter Event.isResolvedNotice = [] := by
  cases responderAction with
  | none =>
    simp only [responderActionBlock, Except.ok.injEq, Prod.mk.injEq] at h
    rw [← h.2]
    rfl
  | some action =>
    by_cases hc : action ≠ "" ∧ user.role = "responder"
    · simp only [responderActionBlock, if_pos hc] at h
      cases hidx : e.responders.indexOf? user.id with
      | none =>
        rw [hidx] at h
        cases h
      | some i =>
        rw [hidx] at h
        by_cases hu : findUserById users user.id = none ∧ findAdmins users ≠ []
        · simp only [if_pos hu] at h
          cases h
        · simp only [if_neg hu] at h
          split at h
          · simp only [Except.ok.injEq, Prod.mk.injEq] at h
            rw [← h.2]
            simp [List.filter_eq_nil_iff, Event.isResolvedNotice]
          · simp only [Except.ok.injEq, Prod.mk.injEq] at h
            rw [← h.2]
            simp [List.filter_eq_nil_iff, Event.isResolvedNotice]
    · simp only [responderActionBlock, if_neg hc, Except.ok.injEq, Prod.mk.injEq] at h
      rw [← h.2]
      rfl

theorem updateEmergencyStatus_ok_events (users : List User) (now : Nat) (user : ReqUser)
    (body : StatusBody) (e saved : Emergency)
    (h : (updateEmergencyStatus users now user body (some e)).response = .ok saved) :
    ∃ status e1 ev1, body.status = some status ∧
      responderActionBlock users now user body.responderAction e = .ok (e1, ev1) ∧
      (updateEmergencyStatus users now user body (some e)).events =
        (if status = "resolved" then
          ev1 ++ (findAdmins users).map (fun admin =>
            Event.admin_emergency_resolved admin._id e._id user.id)
        else ev1) ++
        [Event.emergency_status_updated saved._id status saved.responderActions] := by
  cases hb : body.status with
  | none => simp [updateEmergencyStatus, hb] at h
  | some status =>
    by_cases h0 : status = ""
    · simp [updateEmergencyStatus, hb, h0] at h
    · by_cases h1 : user.role ≠ "admin" ∧ user.id ∉ e.responders
      · simp only [updateEmergencyStatus, hb, h0, if_false, if_pos h1] at h
        cases h
      · cases hblk : responderActionBlock users now user body.responderAction e with
        | error err1 =>
          simp only [updateEmergencyStatus, hb, h0, h1, hblk, if_false] at h
          cases h
        | ok p =>
          obtain ⟨e1, ev1⟩ := p
          simp only [updateEmergencyStatus, hb, h0, h1, hblk, if_false] at h ⊢
          refine ⟨status, e1, ev1, rfl, rfl, ?_⟩
          cases hsv : save (if status = "resolved" then
              { e1 with status := status, resolvedAt := some now }
            else { e1 with status := status }) with
          | error err2 =>
            rw [hsv] at h
            simp at h
          | ok sv =>
            rw [hsv] at h
            have hsaved : sv = saved := by simpa using h
            subst hsaved
            rfl

/-- C14: for every successful `updateEmergencyStatus` call, when the requested status is
`resolved` the stored `resolvedAt` is the time of the call and the resolved notices
emitted are exactly one per admin; for every other requested status `resolvedAt` is left
as it was and no resolved notice is emitted. -/
theorem updateEmergencyStatus_resolved_rule (users : List User) (now : Nat) (user : ReqUser)
    (body : StatusBody) (e saved : Emergency)
    (h : (updateEmergencyStatus users now user body (some e)).response = .ok saved) :
    (body.status = some "resolved" →
      saved.resolvedAt = some now ∧
      (updateEmergencyStatus users now user body (some e)).events.filter
        Event.isResolvedNotice =
          (findAdmins users).map (fun admin =>
            Event.admin_emergency_resolved admin._id e._id user.id)) ∧
    (body.status ≠ some "resolved" →
      saved.resolvedAt = e.resolvedAt ∧
      (updateEmergencyStatus users now user body (some e)).events.filter
        Event.isResolvedNotice = []) := by
  obtain ⟨status, acts, hb, hsaved, -⟩ :=
    updateEmergencyStatus_ok_shape users now user body e saved h
  obtain ⟨status', e1, ev1, hb', hblk, hev⟩ :=
    updateEmergencyStatus_ok_events users now user body e saved h
  have hst : status' = status := by
    rw [hb, Option.some.injEq] at hb'
    exact hb'.symm
  subst hst
  have hev1 := responderActionBlock_events hblk
  constructor
  · intro hres
    rw [hb, Option.some.injEq] at hres
    subst hres
    refine ⟨by rw [hsaved]; rfl, ?_⟩
    rw [hev]
    simp only [if_true, List.filter_append, hev1, List.nil_append]
    simp [List.filter_eq_self, Event.isResolvedNotice, List.filter_cons]
  · intro hres
    have hne : status' ≠ "resolved" := fun hs => hres (by rw [hb, hs])
    refine ⟨by rw [hsaved]; simp [hne], ?_⟩
    rw [hev]
    simp only [if_neg hne, List.filter_append, hev1, List.nil_append]
    simp [Event.isResolvedNotice, List.filter_cons]

/-- C14 at a concrete input: the admin resolves the in-progress sample incident at time 70;
`resolvedAt` becomes 70 and the single admin gets one resolved notice. -/
theorem updateEmergencyStatus_resolved_rule_witness :
    ({ sampleAccepted with status := "resolved", resolvedAt := some 70 } : Emergency).resolvedAt =
      some 70 ∧
    (updateEmergencyStatus sampleUsers 70 sampleAdmin ⟨some "resolved", none⟩
      (some sampleAccepted)).events.filter Event.isResolvedNotice =
        (findAdmins sampleUsers).map (fun admin =>
          Event.admin_emergency_resolved admin._id sampleAccepted._id sampleAdmin.id) :=
  (updateEmergencyStatus_resolved_rule sampleUsers 70 sampleAdmin ⟨some "resolved", none⟩
    sampleAccepted { sampleAccepted with status := "resolved", resolvedAt := some 70 }
    rfl).1 rfl

/-! ## `createEmergency` -/

theorem createEmergency_eq_of_create {users : List User} {near : List Int → Nat → List User}
    {newId now : Nat} {user : ReqUser} {body : EmergencyBody} {e : Emergency}
    (h : create newId now { body with reportedBy := some user.id, status := some "reported" } =
      .ok e) :
    (createEmergency users near newId now user body).response = .ok e ∧
    (createEmergency users near newId now user body).store = some e := by
  simp only [createEmergency, h, and_self]

theorem createEmergency_store_near (users : List User) (near near' : List Int → Nat → List User)
    (newId now : Nat) (user : ReqUser) (body : EmergencyBody) :
    (createEmergency users near' newId now user body).store =
      (createEmergency users near newId now user body).store := by
  cases hc : create newId now
      { body with reportedBy := some user.id, status := some "reported" } with
  | error err => simp only [createEmergency, hc]
  | ok e => rw [(createEmergency_eq_of_create hc).2, (createEmergency_eq_of_create hc).2]

/-- C15: whenever `createEmergency` stores an incident, its status is `reported` whatever
status the body carries, its `reportedBy` is the caller, and its `responders` are those of
the body (none when the body has none): the stored document is the same whatever the
selector returns. A body with valid `type`, `description`, `location` and `severity` (and
valid `responderActions` and `updates`, if any) is stored, whatever its `status`. -/
theorem createEmergency_reported (users : List User) (near : List Int → Nat → List User)
    (newId now : Nat) (user : ReqUser) (body : EmergencyBody) :
    (∀ e, (createEmergency users near newId now user body).store = some e →
      e.status = "reported" ∧ e.reportedBy = user.id ∧
      e.responders = body.responders.getD []) ∧
    (∀ near', (createEmergency users near' newId now user body).store =
      (createEmergency users near newId now user body).store) ∧
    (∀ t d l sev, body.type = some t → body.description = some d → body.location = some l →
      body.severity = some sev → bodyValid { body with status := none } = true →
      (body.responderActions.map validResponderActions).getD true = true →
      ∃ e, (createEmergency users near newId now user body).response = .ok e ∧
        (createEmergency users near newId now user body).store = some e ∧
        e.status = "reported") := by
  refine ⟨?_, fun near' => createEmergency_store_near users near near' newId now user body, ?_⟩
  · intro e h
    obtain ⟨-, h1, h2, h3, -⟩ := createEmergency_store h
    exact ⟨h1, h2, h3⟩
  · intro t d l sev ht hd hl hs hv hva
    simp only [bodyValid, ht, hd, hl, hs, Option.map_some', Option.getD_some, Option.map_none',
      Option.getD_none, Bool.and_true, Bool.and_eq_true] at hv
    obtain ⟨⟨⟨⟨hvt, hvd⟩, hvl⟩, hvs⟩, hvu⟩ := hv
    have hc : create newId now
        { body with reportedBy := some user.id, status := some "reported" } =
        .ok { _id := newId, type := t, description := d, location := l, severity := sev,
              status := "reported", reportedBy := user.id,
              responders := body.responders.getD [], responderActions := body.responderActions,
              updates := body.updates.getD [], createdAt := body.createdAt.getD now,
              assignedAt := body.assignedAt, resolvedAt := body.resolvedAt } := by
      have hvalid : schemaValid
          { _id := newId, type := t, description := d, location := l, severity := sev,
            status := "reported", reportedBy := user.id,
            responders := body.responders.getD [], responderActions := body.responderActions,
            updates := body.updates.getD [], createdAt := body.createdAt.getD now,
            assignedAt := body.assignedAt, resolvedAt := body.resolvedAt } = true := by
        simp only [schemaValid, Bool.and_eq_true, hvt, hvd, hvl, hvs, true_and]
        refine ⟨⟨by decide, ?_⟩, ?_⟩
        · cases hra : body.responderActions with
          | none => rfl
          | some m => simpa [hra] using hva
        · cases hup : body.updates with
          | none => rfl
          | some us => simpa [hup] using hvu
      simp only [create, ht, hd, hl, hs, Option.getD_some]
      rw [if_pos hvalid]
    exact ⟨_, (createEmergency_eq_of_create hc).1, (createEmergency_eq_of_create hc).2, rfl⟩

/-- C15 at a concrete input: the sample body with `status: 'closed'`, created while the
selector finds the whole sample directory, is stored as `reported`, reported by caller 2,
with no responders. -/
theorem createEmergency_reported_witness :
    ∃ e, (createEmergency sampleUsers sampleNear 40 10 ⟨2, "user"⟩
        { sampleBody with status := some "closed" }).store = some e ∧
      e.status = "reported" ∧ e.reportedBy = 2 ∧ e.responders = [] :=
  ⟨sampleReported, by decide,
    (createEmergency_reported sampleUsers sampleNear 40 10 ⟨2, "user"⟩
      { sampleBody with status := some "closed" }).1 sampleReported (by decide)⟩

/-! ## `assignResponders`: a retried call -/

/-- C16 (as stated, refuted): assigning `[5]` to the reported sample incident succeeds and
stores `sampleAssigned`; the identical call made again on what was stored is rejected
with the status error. -/
theorem assignResponders_retry_fails :
    (assignResponders sampleUsers 20 (some [5]) (some sampleReported)).response =
      .ok sampleAssigned ∧
    (assignResponders sampleUsers 20 (some [5]) (some sampleReported)).store =
      some sampleAssigned ∧
    (assignResponders sampleUsers 20 (some [5]) (some sampleAssigned)).response =
      .error (.http 400
        "Emergency must be in reported or pending reassignment status to assign responders") :=
  ⟨rfl, rfl, rfl⟩

/-- C16 (amended): for every incident and `responderIds` on which a first
`assignResponders` call succeeds, the identical call retried on the stored incident is
rejected with the 400 status error, emits nothing, and leaves the stored incident, hence
`responders`, `status` and `responderActions`, equal to what the first call produced. -/
theorem assignResponders_retry_rejected (users : List User) (now later : Nat)
    (responderIds : Option (List ObjectId)) (e saved : Emergency)
    (h : (assignResponders users now responderIds (some e)).response = .ok saved) :
    (assignResponders users now responderIds (some e)).store = some saved ∧
    (assignResponders users later responderIds (some saved)).response =
      .error (.http 400
        "Emergency must be in reported or pending reassignment status to assign responders") ∧
    (assignResponders users later responderIds (some saved)).store = some saved ∧
    (assignResponders users later responderIds (some saved)).events = [] := by
  obtain ⟨ids, e0, hids, -, -, -, -, hsaved, hstore⟩ :=
    assignResponders_ok users now responderIds (some e) saved h
  have hst : saved.status ∉ ["reported", "pending_reassignment"] := by
    rw [hsaved]
    show "assigned" ∉ ["reported", "pending_reassignment"]
    decide
  have hresp : (assignResponders users later responderIds (some saved)).response =
      .error (.http 400
        "Emergency must be in reported or pending reassignment status to assign responders") := by
    rw [hids]
    simp only [assignResponders, if_pos hst]
  exact ⟨hstore, hresp, assignResponders_error_store users later responderIds (some saved) _ hresp⟩

/-- C16 (amended) at a concrete input: the retry of `[5]` on the sample incident. -/
theorem assignResponders_retry_rejected_witness :
    (assignResponders sampleUsers 21 (some [5]) (some sampleAssigned)).response =
      .error (.http 400
        "Emergency must be in reported or pending reassignment status to assign responders") ∧
    (assignResponders sampleUsers 21 (some [5]) (some sampleAssigned)).store =
      some sampleAssigned :=
  have h := assignResponders_retry_rejected sampleUsers 20 21 (some [5]) sampleReported
    sampleAssigned rfl
  ⟨h.2.1, h.2.2.1⟩

/-! ## JavaScript Numbers: exact below `2 ^ 53` -/

theorem roundToDouble_of_lt {n : Nat} (h : n < 2 ^ 53) : roundToDouble n = some n := by
  simp only [roundToDouble, if_pos h]

theorem le_roundSignificand (q r half : Nat) : q ≤ roundSignificand q r half := by
  unfold roundSignificand
  split <;> omega

theorem two_pow_lt_pow_four {k m : Nat} (h : k < m * 4) : 2 ^ k < (2 ^ m) ^ 4 := by
  rw [← Nat.pow_mul]
  exact Nat.pow_lt_pow_right (by decide) h

theorem two_pow_lt_doubleOverflow {k : Nat} (h : k < 1024) : 2 ^ k < doubleOverflow :=
  two_pow_lt_pow_four (by omega)

theorem roundToDouble_two_pow : roundToDouble (2 ^ 53) = some (2 ^ 53) := by
  have hlog : Nat.log2 (2 ^ 53) = 53 := Nat.log2_two_pow
  have hq : roundSignificand (2 ^ 53 / 2 ^ 1) (2 ^ 53 % 2 ^ 1) (2 ^ 0) = 2 ^ 52 := by
    unfold roundSignificand
    norm_num
  have hlim : 2 ^ 52 * 2 ^ 1 < doubleOverflow := by
    have : 2 ^ 52 * 2 ^ 1 = 2 ^ 53 := by norm_num
    rw [this]
    exact two_pow_lt_doubleOverflow (by decide)
  have hneg : ¬ (2 ^ 53 < 2 ^ 53) := Nat.lt_irrefl _
  simp only [roundToDouble, if_neg hneg, hlog, Nat.reduceSub, hq, if_pos hlim]
  norm_num

theorem roundToDouble_of_le {n : Nat} (h : n ≤ 2 ^ 53) : roundToDouble n = some n := by
  rcases Nat.lt_or_eq_of_le h with h | h
  · exact roundToDouble_of_lt h
  · rw [h]
    exact roundToDouble_two_pow

theorem roundToDouble_ge {n v : Nat} (h : 2 ^ 53 ≤ n) (hv : roundToDouble n = some v) :
    2 ^ 53 ≤ v := by
  have hn : n ≠ 0 := by
    rintro rfl
    simp at h
  have hlog : 53 ≤ Nat.log2 n := (Nat.le_log2 hn).2 h
  have hpow : 2 ^ Nat.log2 n ≤ n := Nat.log2_self_le hn
  have hsplit : 2 ^ Nat.log2 n = 2 ^ 52 * 2 ^ (Nat.log2 n - 52) := by
    rw [← Nat.pow_add]
    congr 1
    omega
  have hq : 2 ^ 52 ≤ n / 2 ^ (Nat.log2 n - 52) := by
    rw [Nat.le_div_iff_mul_le (Nat.pos_pow_of_pos _ (by decide))]
    rw [← hsplit]
    exact hpow
  have he : 2 ≤ 2 ^ (Nat.log2 n - 52) := by
    have : 2 ^ 1 ≤ 2 ^ (Nat.log2 n - 52) := Nat.pow_le_pow_right (by decide) (by omega)
    simpa using this
  have hq1 := Nat.le_trans hq (le_roundSignificand (n / 2 ^ (Nat.log2 n - 52))
    (n % 2 ^ (Nat.log2 n - 52)) (2 ^ (Nat.log2 n - 52 - 1)))
  simp only [roundToDouble, if_neg (Nat.not_lt.2 h)] at hv
  by_cases hlim : roundSignificand (n / 2 ^ (Nat.log2 n - 52)) (n % 2 ^ (Nat.log2 n - 52))
      (2 ^ (Nat.log2 n - 52 - 1)) * 2 ^ (Nat.log2 n - 52) < doubleOverflow
  · rw [if_pos hlim, Option.some.injEq] at hv
    rw [← hv]
    calc 2 ^ 53 = 2 ^ 52 * 2 := by norm_num
      _ ≤ _ := Nat.mul_le_mul hq1 he
  · rw [if_neg hlim] at hv
    cases hv

theorem JsNumber.ofInt_natCast_of_le {n : Nat} (h : n ≤ 2 ^ 53) :
    JsNumber.ofInt (n : Int) = .finite n := by
  have hneg : ¬ ((n : Int) < 0) := by omega
  simp only [JsNumber.ofInt, Int.natAbs_ofNat, roundToDouble_of_le h, if_neg hneg]

theorem JsNumber.lt_ofInt_natCast (a len : Nat) (ha : a < 2 ^ 53) :
    (JsNumber.finite (a : Int)).lt (JsNumber.ofInt (len : Int)) = decide (a < len) := by
  have hneg : ¬ ((len : Int) < 0) := by omega
  by_cases hlen : len < 2 ^ 53
  · simp only [JsNumber.ofInt, Int.natAbs_ofNat, roundToDouble_of_lt hlen, if_neg hneg,
      JsNumber.lt, Nat.cast_lt]
  · have hge : 2 ^ 53 ≤ len := Nat.le_of_not_lt hlen
    have hlt : a < len := Nat.lt_of_lt_of_le ha hge
    cases hr : roundToDouble len with
    | none => simp [JsNumber.ofInt, hr, JsNumber.lt, hlt]
    | some v =>
      have hv := roundToDouble_ge hge hr
      have hav : (a : Int) < (v : Int) := by
        have : a < v := Nat.lt_of_lt_of_le ha hv
        exact_mod_cast this
      simp [JsNumber.ofInt, hr, JsNumber.lt, hlt, hneg, hav]

/-! ## `parseInt` on decimal numerals -/

theorem digit_toNat {c : Char} (h : c.isDigit = true) : 48 ≤ c.toNat ∧ c.toNat ≤ 57 := by
  simp only [Char.isDigit, Bool.and_eq_true, decide_eq_true_eq] at h
  obtain ⟨h1, h2⟩ := h
  have h1' : (48 : UInt32).toNat ≤ c.val.toNat := h1
  have h2' : c.val.toNat ≤ (57 : UInt32).toNat := h2
  exact ⟨h1', h2'⟩

theorem isStrWhiteSpace_of_isDigit {c : Char} (h : c.isDigit = true) :
    isStrWhiteSpace c = false := by
  obtain ⟨h1, h2⟩ := digit_toNat h
  simp only [isStrWhiteSpace, List.mem_cons, List.mem_singleton, List.not_mem_nil, or_false,
    Bool.or_eq_false_iff, decide_eq_false_iff_not, Bool.and_eq_false_iff]
  omega

theorem readSign_of_isDigit {d : Char} (ds : List Char) (h : d.isDigit = true) :
    readSign (d :: ds) = (false, d :: ds) := by
  have hminus : d ≠ '-' := by
    rintro rfl
    exact absurd h (by decide)
  have hplus : d ≠ '+' := by
    rintro rfl
    exact absurd h (by decide)
  unfold readSign
  split
  · next rest heq =>
    cases heq
    exact absurd rfl hminus
  · next rest heq =>
    cases heq
    exact absurd rfl hplus
  · rfl

theorem parseInt_decimal (d : Char) (ds : List Char) (h : ∀ c ∈ d :: ds, c.isDigit = true) :
    parseInt (String.mk (d :: ds)) = JsNumber.ofInt (decimalValue (d :: ds) : Int) := by
  have hd : d.isDigit = true := h d (List.mem_cons_self _ _)
  have hws : isStrWhiteSpace d = false := isStrWhiteSpace_of_isDigit hd
  have htake : (d :: ds).takeWhile Char.isDigit = d :: ds :=
    List.takeWhile_eq_self_iff.2 h
  have hne : ¬ (d :: ds = []) := List.cons_ne_nil _ _
  simp only [parseInt, String.toList, List.dropWhile_cons, hws, Bool.false_eq_true, if_false,
    readSign_of_isDigit ds hd, htake, hne]

theorem roundToDouble_tie : roundToDouble 9007199254740993 = some 9007199254740992 := by
  have hlog : Nat.log2 9007199254740993 = 53 := by
    apply Nat.le_antisymm
    · exact Nat.le_of_lt_succ ((Nat.log2_lt (by decide)).2 (by norm_num))
    · exact (Nat.le_log2 (by decide)).2 (by norm_num)
  have hq : roundSignificand (9007199254740993 / 2 ^ 1) (9007199254740993 % 2 ^ 1) (2 ^ 0) =
      2 ^ 52 := by
    unfold roundSignificand
    norm_num
  have hlim : 2 ^ 52 * 2 ^ 1 < doubleOverflow := by
    have : 2 ^ 52 * 2 ^ 1 = 2 ^ 53 := by norm_num
    rw [this]
    exact two_pow_lt_doubleOverflow (by decide)
  have hneg : ¬ (9007199254740993 < 2 ^ 53) := by norm_num
  simp only [roundToDouble, if_neg hneg, hlog, Nat.reduceSub, hq, if_pos hlim]
  norm_num

theorem JsNumber.ofInt_natCast (n : Nat) :
    JsNumber.ofInt (n : Int) =
      match roundToDouble n with
      | none => .infinity false
      | some v => .finite v := by
  have hneg : ¬ ((n : Int) < 0) := Int.not_lt.2 (Int.ofNat_nonneg _)
  simp only [JsNumber.ofInt, Int.natAbs_ofNat, if_neg hneg, decide_eq_false hneg]

/-- The numeral `9007199254740993` is `2 ^ 53 + 1`, half way between two doubles: `parseInt`
gives the even one, `9007199254740992`. -/
theorem parseInt_rounds_to_even :
    parseInt "9007199254740993" = .finite 9007199254740992 := by
  have hparse := parseInt_decimal '9' "007199254740993".toList (by decide)
  have hval : decimalValue ('9' :: "007199254740993".toList) = 9007199254740993 := by decide
  rw [hval, JsNumber.ofInt_natCast, roundToDouble_tie] at hparse
  simpa only [Nat.cast_ofNat] using hparse

theorem parseIntOr_fallback (param : Option String) (fallback : JsNumber)
    (h : param = none ∨
      ∃ s, param = some s ∧ (parseInt s = .nan ∨ parseInt s = .finite 0)) :
    parseIntOr param fallback = fallback := by
  rcases h with rfl | ⟨s, rfl, hs | hs⟩
  · rfl
  · simp [parseIntOr, hs, JsNumber.truthy]
  · simp [parseIntOr, hs, JsNumber.truthy]

theorem parseIntOr_truthy (s : String) (fallback : JsNumber)
    (h : (parseInt s).truthy = true) : parseIntOr (some s) fallback = parseInt s := by
  simp only [parseIntOr, h, if_true]

theorem parseIntOr_decimal (d : Char) (ds : List Char) (fallback : JsNumber)
    (h : ∀ c ∈ d :: ds, c.isDigit = true) (hpos : 0 < decimalValue (d :: ds))
    (hle : decimalValue (d :: ds) ≤ 2 ^ 53) :
    parseIntOr (some (String.mk (d :: ds))) fallback =
      .finite (decimalValue (d :: ds) : Int) := by
  have hparse : parseInt (String.mk (d :: ds)) = .finite (decimalValue (d :: ds) : Int) := by
    rw [parseInt_decimal d ds h, JsNumber.ofInt_natCast_of_le hle]
  have hne : ((decimalValue (d :: ds) : Nat) : Int) ≠ 0 := by omega
  rw [parseIntOr_truthy _ _ (by simp [hparse, JsNumber.truthy, hne]), hparse]

/-! ## `getEmergencies`: pagination -/

theorem JsNumber.mul_natCast (a b : Nat) (h : a * b ≤ 2 ^ 53) :
    (JsNumber.finite (a : Int)).mul (.finite (b : Int)) = .finite ((a * b : Nat) : Int) := by
  have hcast : (a : Int) * (b : Int) = ((a * b : Nat) : Int) := by push_cast; rfl
  simp only [JsNumber.mul, hcast, JsNumber.ofInt_natCast_of_le h]

theorem JsNumber.add_one_natCast (a : Nat) (h : a + 1 ≤ 2 ^ 53) :
    (JsNumber.finite (a : Int)).add (.finite 1) = .finite ((a + 1 : Nat) : Int) := by
  have hcast : (a : Int) + 1 = ((a + 1 : Nat) : Int) := by push_cast; rfl
  simp only [JsNumber.add, hcast, JsNumber.ofInt_natCast_of_le h]

theorem JsNumber.succ_sub_one_natCast (a : Nat) (h : a ≤ 2 ^ 53) :
    (JsNumber.finite ((a + 1 : Nat) : Int)).sub (.finite 1) = .finite (a : Int) := by
  have hcast : ((a + 1 : Nat) : Int) + -1 = (a : Int) := by push_cast; omega
  simp only [JsNumber.sub, JsNumber.neg, JsNumber.add, hcast, JsNumber.ofInt_natCast_of_le h]

theorem getEmergencies_ok
    (skipLimit : JsNumber → JsNumber → List Emergency → Except ApiError (List Emergency))
    (pageParam limitParam : Option String) (sorted : List Emergency) (r : EmergencyList)
    (h : getEmergencies skipLimit pageParam limitParam sorted = .ok r) :
    skipLimit
      (((parseIntOr pageParam (.finite 1)).sub (.finite 1)).mul
        (parseIntOr limitParam (.finite 10)))
      (parseIntOr limitParam (.finite 10)) sorted = .ok r.data ∧
    r.count = r.data.length ∧
    r.pagination.next =
      (if ((parseIntOr pageParam (.finite 1)).mul (parseIntOr limitParam (.finite 10))).lt
          (JsNumber.ofInt sorted.length) then
        some { page := (parseIntOr pageParam (.finite 1)).add (.finite 1),
               limit := parseIntOr limitParam (.finite 10) }
      else none) ∧
    r.pagination.prev =
      (if (JsNumber.finite 0).lt
          (((parseIntOr pageParam (.finite 1)).sub (.finite 1)).mul
            (parseIntOr limitParam (.finite 10))) then
        some { page := (parseIntOr pageParam (.finite 1)).sub (.finite 1),
               limit := parseIntOr limitParam (.finite 10) }
      else none) := by
  simp only [getEmergencies] at h
  cases hq : skipLimit
      (((parseIntOr pageParam (.finite 1)).sub (.finite 1)).mul
        (parseIntOr limitParam (.finite 10)))
      (parseIntOr limitParam (.finite 10)) sorted with
  | error err =>
    rw [hq] at h
    cases h
  | ok emergencies =>
    rw [hq] at h
    simp only [Except.ok.injEq] at h
    subst h
    exact ⟨rfl, rfl, rfl, rfl⟩

theorem getEmergencies_exact
    (skipLimit : JsNumber → JsNumber → List Emergency → Except ApiError (List Emergency))
    (pageParam limitParam : Option String) (sorted : List Emergency) (q l : Nat)
    (hp : parseIntOr pageParam (.finite 1) = .finite ((q + 1 : Nat) : Int))
    (hl : parseIntOr limitParam (.finite 10) = .finite (l : Int))
    (hl1 : 1 ≤ l) (hpl : (q + 1) * l < 2 ^ 53)
    (hstore : ∀ (s k : Nat) (docs : List Emergency), 0 < k →
      skipLimit (.finite (s : Int)) (.finite (k : Int)) docs = .ok ((docs.drop s).take k)) :
    getEmergencies skipLimit pageParam limitParam sorted =
      .ok { count := ((sorted.drop (q * l)).take l).length
            pagination :=
              { next :=
                  if (q + 1) * l < sorted.length then
                    some { page := .finite ((q + 1 + 1 : Nat) : Int), limit := .finite (l : Int) }
                  else none
                prev :=
                  if 0 < q * l then
                    some { page := .finite (q : Int), limit := .finite (l : Int) }
                  else none }
            data := (sorted.drop (q * l)).take l } := by
  have h1 : q + 1 ≤ (q + 1) * l := Nat.le_mul_of_pos_right _ hl1
  have h3 : q * l ≤ (q + 1) * l := Nat.mul_le_mul_right _ (Nat.le_succ q)
  have hsub := JsNumber.succ_sub_one_natCast q (by omega)
  have hstart := JsNumber.mul_natCast q l (by omega)
  have hend := JsNumber.mul_natCast (q + 1) l (by omega)
  have hadd := JsNumber.add_one_natCast (q + 1) (by omega)
  have hlt := JsNumber.lt_ofInt_natCast ((q + 1) * l) sorted.length hpl
  have hprev : (JsNumber.finite 0).lt (.finite ((q * l : Nat) : Int)) = decide (0 < q * l) := by
    simp only [JsNumber.lt]
    congr 1
    exact propext (by exact_mod_cast Iff.rfl)
  simp only [getEmergencies, hp, hl, hsub, hstart, hend, hadd, hlt, hprev,
    hstore (q * l) l sorted hl1, decide_eq_true_eq]

/-- C18: in `getEmergencies`, `page` and `limit` are 1 and 10 when the query value is
missing, has no leading number (`parseInt` gives `NaN`) or is 0, and are the number
`parseInt` reads otherwise: for a decimal numeral of value `n` with `0 < n ≤ 2 ^ 53`, the
number `n`. Every response carries the documents the store returned for
`skip((page-1)*limit).limit(limit)`, with `pagination.next = {page+1, limit}` present
exactly when `page*limit < total` and `pagination.prev = {page-1, limit}` present exactly
when `(page-1)*limit > 0`, all in Number arithmetic. With `page ≥ 1`, `limit ≥ 1` and
`page*limit < 2 ^ 53`, where that arithmetic is exact, on a store whose skip and limit
drop and take, the handler answers with the slice of the sorted matches from index
`(page-1)*limit`, of length at most `limit`, and `next` and `prev` are as stated over the
integers. -/
theorem getEmergencies_pagination
    (skipLimit : JsNumber → JsNumber → List Emergency → Except ApiError (List Emergency))
    (pageParam limitParam : Option String) (sorted : List Emergency) :
    ((pageParam = none ∨
        ∃ s, pageParam = some s ∧ (parseInt s = .nan ∨ parseInt s = .finite 0)) →
      parseIntOr pageParam (.finite 1) = .finite 1) ∧
    ((limitParam = none ∨
        ∃ s, limitParam = some s ∧ (parseInt s = .nan ∨ parseInt s = .finite 0)) →
      parseIntOr limitParam (.finite 10) = .finite 10) ∧
    (∀ s, pageParam = some s → (parseInt s).truthy = true →
      parseIntOr pageParam (.finite 1) = parseInt s) ∧
    (∀ s, limitParam = some s → (parseInt s).truthy = true →
      parseIntOr limitParam (.finite 10) = parseInt s) ∧
    (∀ d ds, (∀ c ∈ d :: ds, c.isDigit = true) → 0 < decimalValue (d :: ds) →
      decimalValue (d :: ds) ≤ 2 ^ 53 →
      (pageParam = some (String.mk (d :: ds)) →
        parseIntOr pageParam (.finite 1) = .finite (decimalValue (d :: ds) : Int)) ∧
      (limitParam = some (String.mk (d :: ds)) →
        parseIntOr limitParam (.finite 10) = .finite (decimalValue (d :: ds) : Int))) ∧
    (∀ r, getEmergencies skipLimit pageParam limitParam sorted = .ok r →
      skipLimit
        (((parseIntOr pageParam (.finite 1)).sub (.finite 1)).mul
          (parseIntOr limitParam (.finite 10)))
        (parseIntOr limitParam (.finite 10)) sorted = .ok r.data ∧
      r.count = r.data.length ∧
      r.pagination.next =
        (if ((parseIntOr pageParam (.finite 1)).mul (parseIntOr limitParam (.finite 10))).lt
            (JsNumber.ofInt sorted.length) then
          some { page := (parseIntOr pageParam (.finite 1)).add (.finite 1),
                 limit := parseIntOr limitParam (.finite 10) }
        else none) ∧
      r.pagination.prev =
        (if (JsNumber.finite 0).lt
            (((parseIntOr pageParam (.finite 1)).sub (.finite 1)).mul
              (parseIntOr limitParam (.finite 10))) then
          some { page := (parseIntOr pageParam (.finite 1)).sub (.finite 1),
                 limit := parseIntOr limitParam (.finite 10) }
        else none)) ∧
    (∀ p l : Nat, parseIntOr pageParam (.finite 1) = .finite (p : Int) →
      parseIntOr limitParam (.finite 10) = .finite (l : Int) →
      1 ≤ p → 1 ≤ l → p * l < 2 ^ 53 →
      (∀ (s k : Nat) (docs : List Emergency), 0 < k →
        skipLimit (.finite (s : Int)) (.finite (k : Int)) docs = .ok ((docs.drop s).take k)) →
      ∃ r, getEmergencies skipLimit pageParam limitParam sorted = .ok r ∧
        r.data = (sorted.drop ((p - 1) * l)).take l ∧
        r.data.length ≤ l ∧ r.count = r.data.length ∧
        r.pagination.next =
          (if p * l < sorted.length then
            some { page := .finite ((p + 1 : Nat) : Int), limit := .finite (l : Int) }
          else none) ∧
        r.pagination.prev =
          (if 0 < (p - 1) * l then
            some { page := .finite ((p - 1 : Nat) : Int), limit := .finite (l : Int) }
          else none)) := by
  refine ⟨parseIntOr_fallback pageParam _, parseIntOr_fallback limitParam _, ?_, ?_, ?_,
    fun r h => getEmergencies_ok skipLimit pageParam limitParam sorted r h, ?_⟩
  · rintro s rfl hs
    exact parseIntOr_truthy s _ hs
  · rintro s rfl hs
    exact parseIntOr_truthy s _ hs
  · intro d ds hdig hpos hle
    constructor
    · rintro rfl
      exact parseIntOr_decimal d ds _ hdig hpos hle
    · rintro rfl
      exact parseIntOr_decimal d ds _ hdig hpos hle
  · intro p l hp hl hp1 hl1 hpl hstore
    obtain ⟨q, rfl⟩ : ∃ q, p = q + 1 := ⟨p - 1, by omega⟩
    have hget := getEmergencies_exact skipLimit pageParam limitParam sorted q l hp hl hl1 hpl
      hstore
    refine ⟨_, hget, ?_, ?_, rfl, ?_, ?_⟩
    · simp only [Nat.add_sub_cancel]
    · exact List.length_take_le _ _
    · rfl
    · simp only [Nat.add_sub_cancel]

/-- C18 at a concrete input: `?page=2&limit=1` over three matches on the in-memory store
answers with the second match, `next = {3, 1}` and `prev = {1, 1}`. -/
theorem getEmergencies_pagination_witness :
    ∃ r, getEmergencies memorySkipLimit (some "2") (some "1")
        [sampleReported, sampleAssigned, samplePending] = .ok r ∧
      r.data = [sampleAssigned] ∧ r.data.length ≤ 1 ∧ r.count = r.data.length ∧
      r.pagination.next = some { page := .finite 3, limit := .finite 1 } ∧
      r.pagination.prev = some { page := .finite 1, limit := .finite 1 } :=
  (getEmergencies_pagination memorySkipLimit (some "2") (some "1")
    [sampleReported, sampleAssigned, samplePending]).2.2.2.2.2.2 2 1 (by decide) (by decide)
    (by decide) (by decide) (by norm_num)
    (by
      intro s k docs hk
      have h0 : ¬ ((s : Int) < 0 ∨ (k : Int) < 0) := by omega
      simp only [memorySkipLimit, if_neg h0, Int.toNat_ofNat])

/-! ## `updateEmergencyStatus`: the map of actions is never written -/

theorem allDeclined_eq_false (emergency : Emergency) (assigned : List ResponderAction) :
    allDeclined emergency assigned = false := by
  simp [allDeclined, mapOwnValues]

theorem updateEmergencyStatus_entries_unchanged (users : List User) (now : Nat)
    (user : ReqUser) (body : StatusBody) (e saved : Emergency)
    (h : (updateEmergencyStatus users now user body (some e)).response = .ok saved) :
    saved.responderActions.getD [] = e.responderActions.getD [] ∧
    body.status = some saved.status := by
  obtain ⟨status, acts, hb, hsaved, hacts⟩ :=
    updateEmergencyStatus_ok_shape users now user body e saved h
  subst hsaved
  refine ⟨?_, hb⟩
  rcases hacts with rfl | ⟨-, -, a, -, -, rfl⟩
  · rfl
  · rfl

end EmergencyResponse
